import Mathlib

set_option maxHeartbeats 1000000

/-!
Shallow embedding of `server/scripts/seed_fake_data.py`, the development
database seeder of the Cumt-campus-hub repository.

The script is a single linear batch: it opens an existing SQLite file,
floors two monotonic counters (`user`, `post`) at the current maximum
`seq` of the corresponding tables, inserts the requested number of user
rows (each paired with an account row), inserts the requested number of
post rows (random board and author), attaches like rows to every k-th
post, and commits everything in one transaction (`with conn:`), rolling
back on any exception.

Modelling decisions:
  * The database is a record of in-memory tables; each SQL statement of
    the script becomes a pure function on it.  `INSERT` statements check
    the uniqueness constraints of the external schema (see note at the
    insert functions) and fail with `Except.error`, mirroring a raised
    `sqlite3.IntegrityError`; the `with conn:` block of `main` is
    modelled by returning the pre-transaction state whenever the body
    fails.
  * Python's global `random` module state is an explicit `Rng` value: a
    deterministic stream of raw draws together with a position, threaded
    through the code in the order the script consumes draws (per post:
    board, then author, then day offset, then second offset).  The
    concrete stream stands in for the Mersenne Twister; every claim
    below depends only on its determinism given the seed.
  * Timestamps are UTC instants in whole seconds (`Int`).  The script
    stores `rfc3339(base - timedelta)`; the RFC 3339 rendering is an
    injective, order-preserving function of the instant and no claim
    concerns the rendered text, so rows store the instant itself.
    `datetime.now` and the wall-clock run id are ambient inputs, passed
    as arguments.
-/

namespace SeedFakeData

/-- State of Python's global `random` module: a fixed stream of raw
draws and the position of the next draw. -/
structure Rng where
  stream : Nat → Nat
  pos : Nat

def Rng.next (g : Rng) : Rng :=
  ⟨g.stream, g.pos + 1⟩

/-- Modelled from the spec: `random.seed(42)` resets the global
pseudo-random generator to a fixed deterministic state.  The concrete
stream is a stand-in for CPython's Mersenne Twister; the claims depend
only on the stream being a function of the seed. -/
def seededStream (seed : Nat) : Nat → Nat :=
  fun n => ((seed + n + 1) * 2654435761) % 4294967296

/-- The generator right after `random.seed(seed)`. -/
def pyRandom (seed : Nat) : Rng :=
  ⟨seededStream seed, 0⟩

/-- Value of a `random.randint(a, b)` draw (inclusive bounds) built from
one raw draw `x`. -/
def drawVal (a b : Int) (x : Nat) : Int :=
  a + Int.ofNat (x % (b - a + 1).toNat)

/-- Modelled from the spec: `random.randint(a, b)` returns an integer in
`[a, b]` and advances the generator by one draw. -/
def randint (a b : Int) (g : Rng) : Int × Rng :=
  (drawVal a b (g.stream g.pos), g.next)

def choiceErrMsg : String := "IndexError: Cannot choose from an empty sequence"

/-- Value of a `random.choice(l)` draw built from one raw draw `x`
(only used on non-empty `l`). -/
def choiceVal (l : List String) (x : Nat) : String :=
  l.getD (x % l.length) ""

/-- Modelled from the spec: `random.choice(l)` picks an element of `l`
uniformly, consuming one draw; on an empty sequence it raises
`IndexError`. -/
def rchoice (l : List String) (g : Rng) : Except String (String × Rng) :=
  if l.isEmpty then Except.error choiceErrMsg
  else Except.ok (choiceVal l (g.stream g.pos), g.next)

/-! ## Data model: the tables touched by the script -/

structure UserRow where
  seq : Int
  id : String
  nickname : String
  created_at : Int
  deriving DecidableEq, Repr

structure AccountRow where
  account : String
  user_id : String
  password_hash : String
  deriving DecidableEq, Repr

structure BoardRow where
  seq : Int
  id : String
  deriving DecidableEq, Repr

structure PostRow where
  seq : Int
  id : String
  board_id : String
  author_id : String
  title : String
  content : String
  created_at : Int
  deleted_at : Option Int
  deriving DecidableEq, Repr

structure VoteRow where
  post_id : String
  user_id : String
  value : Int
  created_at : Int
  deriving DecidableEq, Repr

/-- The SQLite database: one list per table, rows in storage order.
Counters are `(name, value)` pairs. -/
structure DB where
  counters : List (String × Int)
  users : List UserRow
  accounts : List AccountRow
  boards : List BoardRow
  posts : List PostRow
  post_votes : List VoteRow
  deriving DecidableEq, Repr

def emptyDB : DB :=
  ⟨[], [], [], [], [], []⟩

/-! ## The SQL statements of the script -/

/-- `SELECT value FROM counters WHERE name = ?` (first matching row). -/
def counterLookup : List (String × Int) → String → Option Int
  | [], _ => none
  | (n, v) :: rest, name => if n = name then some v else counterLookup rest name

/-- `INSERT OR IGNORE INTO counters(name, value) VALUES(?, ?)`:
a no-op when a row with this name exists (name is the key). -/
def insertOrIgnoreCounter (cs : List (String × Int)) (name : String) (v : Int) :
    List (String × Int) :=
  if (counterLookup cs name).isSome then cs else cs ++ [(name, v)]

/-- `UPDATE counters SET value = CASE WHEN value < m THEN m ELSE value END
WHERE name = ?`: rows of other names keep their value. -/
def raiseCounter (cs : List (String × Int)) (name : String) (m : Int) :
    List (String × Int) :=
  cs.map (fun p => (p.1, if p.1 = name then max p.2 m else p.2))

/-- `UPDATE counters SET value = value + 1 WHERE name = ?`: rows of
other names keep their value. -/
def bumpCounter (cs : List (String × Int)) (name : String) :
    List (String × Int) :=
  cs.map (fun p => (p.1, if p.1 = name then p.2 + 1 else p.2))

/-- `ensure_counter_at_least(conn, name, min_value)`. -/
def ensure_counter_at_least (db : DB) (name : String) (min_value : Int) : DB :=
  { db with counters :=
      raiseCounter (insertOrIgnoreCounter db.counters name min_value) name min_value }

/-- `next_counter(conn, name)`: insert-or-ignore a zero row, increment,
read back the value. -/
def next_counter (db : DB) (name : String) : Int × DB :=
  let cs := bumpCounter (insertOrIgnoreCounter db.counters name 0) name
  ((counterLookup cs name).getD 0, { db with counters := cs })

/-- `SELECT COALESCE(MAX(seq), 0) FROM t` over the seq column of a
table, composed with Python's `int(row[0] or 0)` (which maps the NULL
of an empty table, already collapsed to 0, to 0). -/
def max_seq : List Int → Int
  | [] => 0
  | s :: rest => rest.foldl max s

/-- Insertion sort by `seq`, modelling `ORDER BY seq ASC`. -/
def insertBySeq (b : BoardRow) : List BoardRow → List BoardRow
  | [] => [b]
  | c :: rest => if b.seq ≤ c.seq then b :: c :: rest else c :: insertBySeq b rest

def sortBySeq : List BoardRow → List BoardRow
  | [] => []
  | b :: rest => insertBySeq b (sortBySeq rest)

/-- `fetch_board_ids(conn)`: ids of `SELECT id FROM boards ORDER BY seq
ASC`, or the fallback trio when the table is empty. -/
def fetch_board_ids (db : DB) : List String :=
  let rows := (sortBySeq db.boards).map (fun b => b.id)
  if rows.isEmpty then ["b_1", "b_2", "b_3"] else rows

def usersUniqueMsg : String := "UNIQUE constraint failed: users.id"
def accountsUniqueMsg : String := "UNIQUE constraint failed: accounts.account"
def postsUniqueMsg : String := "UNIQUE constraint failed: posts.id"
def votesUniqueMsg : String := "UNIQUE constraint failed: post_votes.post_id, post_votes.user_id"

/-- Modelled from the spec: the SQLite schema itself is an external
collaborator (not in this repository).  Per the data model, user ids are
unique identifiers; inserting a duplicate raises an IntegrityError. -/
def insertUserRow (db : DB) (r : UserRow) : Except String DB :=
  if db.users.any (fun u => u.id == r.id) then Except.error usersUniqueMsg
  else Except.ok { db with users := db.users ++ [r] }

/-- Modelled from the spec: `account` is a unique login identifier. -/
def insertAccountRow (db : DB) (r : AccountRow) : Except String DB :=
  if db.accounts.any (fun a => a.account == r.account) then Except.error accountsUniqueMsg
  else Except.ok { db with accounts := db.accounts ++ [r] }

/-- Modelled from the spec: post ids are unique identifiers. -/
def insertPostRow (db : DB) (r : PostRow) : Except String DB :=
  if db.posts.any (fun p => p.id == r.id) then Except.error postsUniqueMsg
  else Except.ok { db with posts := db.posts ++ [r] }

/-- Modelled from the spec: a like is a `(post_id, user_id)` pair, the
key of `post_votes`. -/
def insertVoteRow (db : DB) (r : VoteRow) : Except String DB :=
  if db.post_votes.any (fun v => v.post_id == r.post_id && v.user_id == r.user_id) then
    Except.error votesUniqueMsg
  else Except.ok { db with post_votes := db.post_votes ++ [r] }

/-! ## seed_users -/

/-- Python `f"{n:03d}"` for a natural number. -/
def pad3 (n : Nat) : String :=
  let s := toString n
  if s.length < 3 then String.mk (List.replicate (3 - s.length) '0') ++ s else s

def SAMPLE_POSTS : List (String × String) :=
  [("矿大哪个食堂最好吃？", "最近总不知道吃什么，求推荐。"),
   ("大二 CS 选课求助", "想选计网/OS，学长学姐给点建议。"),
   ("丢了一张校园卡...", "在三食堂附近丢的，有捡到的同学联系我。"),
   ("期末复习资料求分享", "有没有离散/高数复习资料？"),
   ("宿舍空调维修渠道", "空调不制冷，有没有靠谱报修？"),
   ("图书馆自习室占座", "现在占座还严重吗？"),
   ("校园跑腿推荐", "有没有便宜的跑腿小哥/平台？"),
   ("考研自习搭子", "找个考研搭子一起打卡。"),
   ("校园网速度慢", "晚上打游戏延迟高，怎么办？"),
   ("社团活动推荐", "想认识新朋友，有哪些好玩的社团？")]

/-- `SAMPLE_POSTS[i % len(SAMPLE_POSTS)]` (the index is always in
range, so `getD` equals the Python indexing). -/
def samplePost (i : Nat) : String × String :=
  SAMPLE_POSTS.getD (i % SAMPLE_POSTS.length) ("", "")

/-- Loop state of `seed_users`: the connection, the generator and the
accumulated `user_ids` list. -/
structure UsersSt where
  db : DB
  rng : Rng
  ids : List String

/-- One iteration of the `seed_users` loop, at 0-based index `i`. -/
def seedUserStep (run_id : String) (base_time : Int) (i : Nat) (st : UsersSt) :
    Except String UsersSt := do
  let (seq, db) := next_counter st.db "user"
  let user_id := "u_" ++ toString seq
  let nickname := "虚拟用户" ++ pad3 (i + 1)
  let (d, rng) := randint 0 90 st.rng
  let created_at := base_time - 86400 * d
  let db ← insertUserRow db ⟨seq, user_id, nickname, created_at⟩
  let account := "seed_" ++ run_id ++ "_" ++ pad3 (i + 1)
  let db ← insertAccountRow db ⟨account, user_id, ""⟩
  Except.ok ⟨db, rng, st.ids ++ [user_id]⟩

/-- The `for i in range(count)` loop of `seed_users`: `n` iterations
remaining, next index `i`. -/
def seedUsersGo (run_id : String) (base_time : Int) :
    Nat → Nat → UsersSt → Except String UsersSt
  | 0, _, st => Except.ok st
  | n + 1, i, st => do
      let st' ← seedUserStep run_id base_time i st
      seedUsersGo run_id base_time n (i + 1) st'

/-- `seed_users(conn, count, run_id)`.  `base_time` is the
`datetime.now(timezone.utc)` instant of the call; a negative `count`
makes `range(count)` empty, hence `.toNat`. -/
def seed_users (db : DB) (rng : Rng) (count : Int) (run_id : String) (base_time : Int) :
    Except String (List String × DB × Rng) := do
  let st ← seedUsersGo run_id base_time count.toNat 0 ⟨db, rng, []⟩
  Except.ok (st.ids, st.db, st.rng)

/-! ## seed_posts -/

/-- Loop state of the post-generation loop of `seed_posts`: connection,
generator, accumulated `(post_id, created_at)` list. -/
structure PostsSt where
  db : DB
  rng : Rng
  posts : List (String × Int)

/-- One iteration of the post-generation loop, at 0-based index `i`. -/
def seedPostStep (user_ids board_ids : List String) (base_time : Int) (i : Nat)
    (st : PostsSt) : Except String PostsSt := do
  let (seq, db) := next_counter st.db "post"
  let post_id := "p_" ++ toString seq
  let (board_id, rng) ← rchoice board_ids st.rng
  let (author_id, rng) ← rchoice user_ids rng
  let (title, content0) := samplePost i
  let content := content0 ++ "（帖子 " ++ toString (i + 1) ++ "）"
  let (d, rng) := randint 0 30 rng
  let (s, rng) := randint 0 86400 rng
  let created_at := base_time - (86400 * d + s)
  let db ← insertPostRow db ⟨seq, post_id, board_id, author_id, title, content, created_at, none⟩
  Except.ok ⟨db, rng, st.posts ++ [(post_id, created_at)]⟩

/-- The `for i in range(count)` loop of `seed_posts`. -/
def seedPostsGo (user_ids board_ids : List String) (base_time : Int) :
    Nat → Nat → PostsSt → Except String PostsSt
  | 0, _, st => Except.ok st
  | n + 1, i, st => do
      let st' ← seedPostStep user_ids board_ids base_time i st
      seedPostsGo user_ids board_ids base_time n (i + 1) st'

/-- `set(range(0, count, liked_every))` for `liked_every ≥ 1`: the set
of multiples of `liked_every` below `count`.  The Python value is a set
used only for membership tests; the filter below lists exactly its
elements. -/
def likedIndices (count : Nat) (liked_every : Nat) : List Nat :=
  (List.range count).filter (fun idx => idx % liked_every == 0)

/-- The inner `for user_id in user_ids[:like_user_count]` loop: one
like row per user. -/
def insertVoteRows (post_id : String) (created_at : Int) :
    List String → DB → Except String DB
  | [], db => Except.ok db
  | uid :: rest, db => do
      let db ← insertVoteRow db ⟨post_id, uid, 1, created_at⟩
      insertVoteRows post_id created_at rest db

/-- The `for idx, (post_id, created_at) in enumerate(posts)` loop of
`seed_posts`: skips a post when its index is not selected or the capped
like count is non-positive, otherwise counts it and inserts one like
row per user in the capped leading segment of `user_ids`. -/
def likesGo (user_ids : List String) (lidx : List Nat) (like_user_count : Int) :
    List (Nat × String × Int) → DB → Nat → Except String (DB × Nat)
  | [], db, liked => Except.ok (db, liked)
  | (idx, post_id, created_at) :: rest, db, liked =>
      if ¬ lidx.contains idx ∨ like_user_count ≤ 0 then
        likesGo user_ids lidx like_user_count rest db liked
      else do
        let db ← insertVoteRows post_id created_at
          (user_ids.take like_user_count.toNat) db
        likesGo user_ids lidx like_user_count rest db (liked + 1)

/-- `seed_posts(conn, count, user_ids, board_ids, likes_per_post,
liked_every)`.  `base_time` is the `datetime.now(timezone.utc)` instant
of the call.  Returns the `(post_id, created_at)` list and the number
of posts that received likes, with the updated connection and
generator. -/
def seed_posts (db : DB) (rng : Rng) (count : Int) (user_ids board_ids : List String)
    (likes_per_post liked_every : Int) (base_time : Int) :
    Except String (List (String × Int) × Nat × DB × Rng) := do
  let st ← seedPostsGo user_ids board_ids base_time count.toNat 0 ⟨db, rng, []⟩
  let le := max 1 liked_every
  let lidx := likedIndices count.toNat le.toNat
  let like_user_count : Int := min likes_per_post (Int.ofNat user_ids.length)
  let (db2, liked_posts) ← likesGo user_ids lidx like_user_count st.posts.enum st.db 0
  Except.ok (st.posts, liked_posts, db2, st.rng)

/-! ## main -/

/-- The command-line flags (argparse, all with defaults). -/
structure Flags where
  db : String
  users : Int
  posts : Int
  likes_per_post : Int
  liked_every : Int
  deriving DecidableEq, Repr

def defaultFlags : Flags :=
  ⟨"server/storage/dev.db", 50, 200, 50, 5⟩

/-- Result of the transactional body (the `with conn:` block): the
committed database, the generated user ids, the generated
`(post_id, created_at)` list and the liked-post count. -/
structure RunOut where
  db : DB
  user_ids : List String
  posts : List (String × Int)
  liked_posts : Nat
  deriving DecidableEq, Repr

/-- The `with conn:` block of `main`: counter floors, user seeding,
board fetch, post seeding.  `run_id` is the wall-clock-derived
discriminator; `tU` and `tP` are the `datetime.now` instants taken at
the start of `seed_users` and `seed_posts`. -/
def runBody (db : DB) (fl : Flags) (rng : Rng) (run_id : String) (tU tP : Int) :
    Except String RunOut := do
  let db := ensure_counter_at_least db "user" (max_seq (db.users.map (fun u => u.seq)))
  let db := ensure_counter_at_least db "post" (max_seq (db.posts.map (fun p => p.seq)))
  let (user_ids, db, rng) ← seed_users db rng fl.users run_id tU
  let board_ids := fetch_board_ids db
  let (posts, liked_posts, db, _) ←
    seed_posts db rng fl.posts user_ids board_ids fl.likes_per_post fl.liked_every tP
  Except.ok ⟨db, user_ids, posts, liked_posts⟩

/-- Observable outcome of the process: final database file contents,
exit status, stdout lines, stderr lines. -/
structure ProcResult where
  db : DB
  exitCode : Nat
  out : List String
  err : List String
  deriving DecidableEq, Repr

def dbNotFoundMsg (path : String) : String :=
  "Database not found: " ++ path

def summaryLine (users posts liked : Nat) : String :=
  "Seeded users: " ++ toString users ++ ", posts: " ++ toString posts ++
    ", posts with likes: " ++ toString liked

def warnLine (cap : Nat) : String :=
  "Warning: likes_per_post exceeds user count; likes capped to " ++ toString cap ++ "."

/-- `main()`: precondition check on the database path, then the single
transaction; an exception inside the `with conn:` block rolls the
transaction back (the file keeps its pre-run contents) and propagates,
so the process exits unsuccessfully with the error on stderr.  On
success the summary (and, when the requested per-post likes exceed the
user count, the warning) is printed and the process exits 0. -/
def main_run (dbExists : Bool) (db : DB) (fl : Flags) (run_id : String) (tU tP : Int) :
    ProcResult :=
  if ¬ dbExists then
    ⟨db, 1, [], [dbNotFoundMsg fl.db]⟩
  else
    match runBody db fl (pyRandom 42) run_id tU tP with
    | Except.error e => ⟨db, 1, [], [e]⟩
    | Except.ok r =>
        let warn :=
          if decide (Int.ofNat r.user_ids.length < fl.likes_per_post) then
            [warnLine r.user_ids.length]
          else []
        ⟨r.db, 0, summaryLine r.user_ids.length r.posts.length r.liked_posts :: warn, []⟩

/-! ## Counter lemmas -/

/-- `value = value + n` applied to every row of the given name: the
effect of `n` sequential `next_counter` increments on the table. -/
def bumpCounterN (cs : List (String × Int)) (name : String) (n : Nat) :
    List (String × Int) :=
  cs.map (fun p => (p.1, if p.1 = name then p.2 + Int.ofNat n else p.2))

theorem counterLookup_append_single_none (cs : List (String × Int)) (name : String)
    (v : Int) (h : counterLookup cs name = none) :
    counterLookup (cs ++ [(name, v)]) name = some v := by
  induction cs with
  | nil => simp [counterLookup]
  | cons p rest ih =>
      obtain ⟨pn, pv⟩ := p
      by_cases hp : pn = name
      · simp [counterLookup, hp] at h
      · simp only [counterLookup, hp, if_false, List.cons_append] at h ⊢
        exact ih h

theorem counterLookup_append_single_other (cs : List (String × Int)) (name nm : String)
    (v : Int) (h : nm ≠ name) :
    counterLookup (cs ++ [(name, v)]) nm = counterLookup cs nm := by
  induction cs with
  | nil => simp [counterLookup, Ne.symm h]
  | cons p rest ih =>
      obtain ⟨pn, pv⟩ := p
      by_cases hq : pn = nm <;> simp [counterLookup, hq, ih]

theorem counterLookup_insertOrIgnore_self (cs : List (String × Int)) (name : String)
    (v : Int) :
    counterLookup (insertOrIgnoreCounter cs name v) name =
      some ((counterLookup cs name).getD v) := by
  unfold insertOrIgnoreCounter
  cases h : counterLookup cs name with
  | some w => simp [h]
  | none => simp [h, counterLookup_append_single_none cs name v h]

theorem counterLookup_insertOrIgnore_other (cs : List (String × Int)) (name nm : String)
    (v : Int) (h : nm ≠ name) :
    counterLookup (insertOrIgnoreCounter cs name v) nm = counterLookup cs nm := by
  unfold insertOrIgnoreCounter
  split
  · rfl
  · exact counterLookup_append_single_other cs name nm v h

theorem insertOrIgnoreCounter_of_isSome (cs : List (String × Int)) (name : String)
    (v : Int) (h : (counterLookup cs name).isSome) :
    insertOrIgnoreCounter cs name v = cs := by
  simp [insertOrIgnoreCounter, h]

theorem counterLookup_raiseCounter_self (cs : List (String × Int)) (name : String)
    (m : Int) :
    counterLookup (raiseCounter cs name m) name =
      (counterLookup cs name).map (fun v => max v m) := by
  induction cs with
  | nil => simp [raiseCounter, counterLookup]
  | cons p rest ih =>
      obtain ⟨pn, pv⟩ := p
      by_cases hp : pn = name
      · subst hp
        simp [raiseCounter, counterLookup]
      · simp only [raiseCounter, List.map_cons, counterLookup, hp, if_false] at ih ⊢
        exact ih

theorem counterLookup_raiseCounter_other (cs : List (String × Int)) (name nm : String)
    (m : Int) (h : nm ≠ name) :
    counterLookup (raiseCounter cs name m) nm = counterLookup cs nm := by
  induction cs with
  | nil => simp [raiseCounter, counterLookup]
  | cons p rest ih =>
      obtain ⟨pn, pv⟩ := p
      by_cases hq : pn = nm
      · subst hq
        simp [raiseCounter, counterLookup, h]
      · simp only [raiseCounter, List.map_cons, counterLookup, hq, if_false] at ih ⊢
        exact ih

theorem counterLookup_bumpCounterN_self (cs : List (String × Int)) (name : String)
    (n : Nat) :
    counterLookup (bumpCounterN cs name n) name =
      (counterLookup cs name).map (fun v => v + Int.ofNat n) := by
  induction cs with
  | nil => simp [bumpCounterN, counterLookup]
  | cons p rest ih =>
      obtain ⟨pn, pv⟩ := p
      by_cases hp : pn = name
      · subst hp
        simp [bumpCounterN, counterLookup]
      · simp only [bumpCounterN, List.map_cons, counterLookup, hp, if_false] at ih ⊢
        exact ih

theorem counterLookup_bumpCounterN_other (cs : List (String × Int)) (name nm : String)
    (n : Nat) (h : nm ≠ name) :
    counterLookup (bumpCounterN cs name n) nm = counterLookup cs nm := by
  induction cs with
  | nil => simp [bumpCounterN, counterLookup]
  | cons p rest ih =>
      obtain ⟨pn, pv⟩ := p
      by_cases hq : pn = nm
      · subst hq
        simp [bumpCounterN, counterLookup, h]
      · simp only [bumpCounterN, List.map_cons, counterLookup, hq, if_false] at ih ⊢
        exact ih

theorem bumpCounterN_zero (cs : List (String × Int)) (name : String) :
    bumpCounterN cs name 0 = cs := by
  unfold bumpCounterN
  have hpt : ∀ p : String × Int,
      ((p.1, if p.1 = name then p.2 + Int.ofNat 0 else p.2) : String × Int) = p := by
    intro p
    by_cases hp : p.1 = name <;> simp [hp, Prod.ext_iff]
  calc cs.map (fun p => (p.1, if p.1 = name then p.2 + Int.ofNat 0 else p.2))
      = cs.map id := List.map_congr_left (fun a _ => hpt a)
    _ = cs := List.map_id cs

theorem bumpCounterN_bumpCounter (cs : List (String × Int)) (name : String) (n : Nat) :
    bumpCounterN (bumpCounter cs name) name n = bumpCounterN cs name (n + 1) := by
  unfold bumpCounter bumpCounterN
  rw [List.map_map]
  apply List.map_congr_left
  intro p _
  by_cases hp : p.1 = name
  · simp only [Function.comp_apply, hp, if_pos rfl, Prod.mk.injEq, true_and,
      Int.ofNat_eq_natCast]
    push_cast
    ring
  · simp [Function.comp_apply, hp, Prod.ext_iff]

theorem bumpCounter_eq_bumpCounterN_one (cs : List (String × Int)) (name : String) :
    bumpCounter cs name = bumpCounterN cs name 1 := by
  rw [← bumpCounterN_bumpCounter cs name 0, bumpCounterN_zero]

/-- `next_counter` on a table where the name is present: returns the
incremented value and bumps the row. -/
theorem next_counter_present (db : DB) (name : String) (c : Int)
    (h : counterLookup db.counters name = some c) :
    next_counter db name = (c + 1, { db with counters := bumpCounter db.counters name }) := by
  unfold next_counter
  rw [insertOrIgnoreCounter_of_isSome db.counters name 0 (by simp [h])]
  have hb : counterLookup (bumpCounter db.counters name) name = some (c + 1) := by
    rw [bumpCounter_eq_bumpCounterN_one, counterLookup_bumpCounterN_self, h]
    rfl
  simp [hb]

/-- The stored value after `ensure_counter_at_least`: the old value
raised to the floor, the floor itself when the row was absent. -/
theorem counterLookup_ensure_self (db : DB) (name : String) (m : Int) :
    counterLookup (ensure_counter_at_least db name m).counters name =
      some (max ((counterLookup db.counters name).getD m) m) := by
  unfold ensure_counter_at_least
  simp only
  rw [counterLookup_raiseCounter_self, counterLookup_insertOrIgnore_self]
  simp

theorem counterLookup_ensure_other (db : DB) (name nm : String) (m : Int)
    (h : nm ≠ name) :
    counterLookup (ensure_counter_at_least db name m).counters nm =
      counterLookup db.counters nm := by
  unfold ensure_counter_at_least
  simp only
  rw [counterLookup_raiseCounter_other _ _ _ _ h, counterLookup_insertOrIgnore_other _ _ _ _ h]

theorem ensure_counter_tables (db : DB) (name : String) (m : Int) :
    (ensure_counter_at_least db name m).users = db.users ∧
    (ensure_counter_at_least db name m).accounts = db.accounts ∧
    (ensure_counter_at_least db name m).boards = db.boards ∧
    (ensure_counter_at_least db name m).posts = db.posts ∧
    (ensure_counter_at_least db name m).post_votes = db.post_votes := by
  unfold ensure_counter_at_least
  exact ⟨rfl, rfl, rfl, rfl, rfl⟩

/-! ## Closed form of the seed_users loop -/

/-- The user row generated by iteration `j` of a `seed_users` loop that
starts at counter value `c`, loop index `iOff` and generator `g`. -/
def genUserRow (c t : Int) (g : Rng) (iOff j : Nat) : UserRow :=
  ⟨c + Int.ofNat (j + 1), "u_" ++ toString (c + Int.ofNat (j + 1)),
   "虚拟用户" ++ pad3 (iOff + j + 1),
   t - 86400 * drawVal 0 90 (g.stream (g.pos + j))⟩

/-- The account row paired with `genUserRow`. -/
def genAccountRow (rid : String) (c : Int) (iOff j : Nat) : AccountRow :=
  ⟨"seed_" ++ rid ++ "_" ++ pad3 (iOff + j + 1), "u_" ++ toString (c + Int.ofNat (j + 1)), ""⟩

theorem genUserRow_shift (c t : Int) (g : Rng) (iOff j : Nat) :
    genUserRow (c + 1) t g.next (iOff + 1) j = genUserRow c t g iOff (j + 1) := by
  unfold genUserRow Rng.next
  have h1 : c + 1 + Int.ofNat (j + 1) = c + Int.ofNat (j + 1 + 1) := by
    simp only [Int.ofNat_eq_natCast]
    push_cast
    ring
  have h2 : iOff + 1 + j + 1 = iOff + (j + 1) + 1 := by omega
  have h3 : g.pos + 1 + j = g.pos + (j + 1) := by omega
  rw [h1, h2]
  simp only [h3]

theorem genAccountRow_shift (rid : String) (c : Int) (iOff j : Nat) :
    genAccountRow rid (c + 1) (iOff + 1) j = genAccountRow rid c iOff (j + 1) := by
  unfold genAccountRow
  have h1 : c + 1 + Int.ofNat (j + 1) = c + Int.ofNat (j + 1 + 1) := by
    simp only [Int.ofNat_eq_natCast]
    push_cast
    ring
  have h2 : iOff + 1 + j + 1 = iOff + (j + 1) + 1 := by omega
  rw [h1, h2]

/-- One successful iteration of the `seed_users` loop, seen from a
counter table holding `c` for "user". -/
theorem seedUserStep_ok (rid : String) (t : Int) (i : Nat) (db : DB) (g : Rng)
    (acc : List String) (c : Int) (st' : UsersSt)
    (hc : counterLookup db.counters "user" = some c)
    (h : seedUserStep rid t i ⟨db, g, acc⟩ = Except.ok st') :
    st' = ⟨{ db with
              counters := bumpCounter db.counters "user",
              users := db.users ++ [genUserRow c t g i 0],
              accounts := db.accounts ++ [genAccountRow rid c i 0] },
           g.next, acc ++ ["u_" ++ toString (c + 1)]⟩ := by
  unfold seedUserStep at h
  rw [next_counter_present db "user" c hc] at h
  unfold insertUserRow insertAccountRow at h
  simp only [randint] at h
  by_cases husers : (db.users.any fun u => u.id == "u_" ++ toString (c + 1)) = true
  · rw [if_pos husers] at h
    simp only [Bind.bind, Except.bind] at h
    exact Except.noConfusion h
  · rw [if_neg husers] at h
    simp only [Bind.bind, Except.bind] at h
    by_cases hacc :
        (db.accounts.any fun a => a.account == "seed_" ++ rid ++ "_" ++ pad3 (i + 1)) = true
    · rw [if_pos hacc] at h
      simp only [Bind.bind, Except.bind] at h
      exact Except.noConfusion h
    · rw [if_neg hacc] at h
      simp only [Bind.bind, Except.bind] at h
      simp only [Except.ok.injEq] at h
      rw [← h]
      unfold genUserRow genAccountRow
      simp

/-- Closed form of a successful `seed_users` loop: the counters table
gets `n` bumps of "user", the users and accounts tables receive one
generated row per iteration, the other tables are untouched, the
generator advances by one draw per iteration, and the returned ids are
`u_(c+1) … u_(c+n)`. -/
theorem seedUsersGo_ok (rid : String) (t : Int) :
    ∀ (n i : Nat) (db : DB) (g : Rng) (acc : List String) (c : Int) (st' : UsersSt),
      counterLookup db.counters "user" = some c →
      seedUsersGo rid t n i ⟨db, g, acc⟩ = Except.ok st' →
      st'.db.counters = bumpCounterN db.counters "user" n ∧
      st'.db.users = db.users ++ (List.range n).map (genUserRow c t g i) ∧
      st'.db.accounts = db.accounts ++ (List.range n).map (genAccountRow rid c i) ∧
      st'.db.boards = db.boards ∧
      st'.db.posts = db.posts ∧
      st'.db.post_votes = db.post_votes ∧
      st'.rng = Rng.mk g.stream (g.pos + n) ∧
      st'.ids = acc ++ (List.range n).map (fun j => "u_" ++ toString (c + Int.ofNat (j + 1))) := by
  intro n
  induction n with
  | zero =>
      intro i db g acc c st' hc h
      unfold seedUsersGo at h
      simp only [Except.ok.injEq] at h
      rw [← h]
      simp [bumpCounterN_zero]
  | succ n ih =>
      intro i db g acc c st' hc h
      unfold seedUsersGo at h
      cases hstep : seedUserStep rid t i ⟨db, g, acc⟩ with
      | error e =>
          rw [hstep] at h
          exact absurd h (by simp [Bind.bind, Except.bind])
      | ok st1 =>
          rw [hstep] at h
          simp only [Bind.bind, Except.bind] at h
          rw [seedUserStep_ok rid t i db g acc c st1 hc hstep] at h
          have hc1 : counterLookup (bumpCounter db.counters "user") "user" = some (c + 1) := by
            rw [bumpCounter_eq_bumpCounterN_one, counterLookup_bumpCounterN_self, hc]
            rfl
          obtain ⟨e1, e2, e3, e4, e5, e6, e7, e8⟩ := ih (i + 1) _ g.next _ (c + 1) st' hc1 h
          refine ⟨?_, ?_, ?_, by simpa using e4, by simpa using e5, by simpa using e6, ?_, ?_⟩
          · rw [e1]
            exact bumpCounterN_bumpCounter db.counters "user" n
          · rw [e2]
            simp only [List.append_assoc, List.singleton_append,
              List.range_succ_eq_map, List.map_cons, List.map_map]
            congr 1
            congr 1
            apply List.map_congr_left
            intro j _
            exact genUserRow_shift c t g i j
          · rw [e3]
            simp only [List.append_assoc, List.singleton_append,
              List.range_succ_eq_map, List.map_cons, List.map_map]
            congr 1
            congr 1
            apply List.map_congr_left
            intro j _
            exact genAccountRow_shift rid c i j
          · rw [e7]
            simp only [Rng.next]
            congr 1
            omega
          · rw [e8]
            simp only [List.append_assoc, List.singleton_append,
              List.range_succ_eq_map, List.map_cons, List.map_map]
            congr 1
            have hhead : ("u_" ++ toString (c + 1) : String) =
                "u_" ++ toString (c + Int.ofNat (0 + 1)) := by
              simp
            have htail :
                List.map (fun j => "u_" ++ toString (c + 1 + Int.ofNat (j + 1))) (List.range n) =
                List.map ((fun j => "u_" ++ toString (c + Int.ofNat (j + 1))) ∘ Nat.succ)
                  (List.range n) := by
              apply List.map_congr_left
              intro j hj
              have harg : c + 1 + Int.ofNat (j + 1) = c + Int.ofNat (Nat.succ j + 1) := by
                simp only [Int.ofNat_eq_natCast, Nat.succ_eq_add_one]
                omega
              exact congrArg (fun z : Int => "u_" ++ toString z) harg
            rw [hhead, htail]

/-! ## Closed form of the seed_posts loops -/

/-- The post row generated by iteration `j` of a `seed_posts` loop that
starts at counter value `c`, loop index `iOff` and generator `g`: one
draw each for board, author, day offset and second offset, in this
order. -/
def genPostRow (c t : Int) (uids bids : List String) (g : Rng) (iOff j : Nat) : PostRow :=
  ⟨c + Int.ofNat (j + 1),
   "p_" ++ toString (c + Int.ofNat (j + 1)),
   choiceVal bids (g.stream (g.pos + 4 * j)),
   choiceVal uids (g.stream (g.pos + 4 * j + 1)),
   (samplePost (iOff + j)).1,
   (samplePost (iOff + j)).2 ++ "（帖子 " ++ toString (iOff + j + 1) ++ "）",
   t - (86400 * drawVal 0 30 (g.stream (g.pos + 4 * j + 2)) +
        drawVal 0 86400 (g.stream (g.pos + 4 * j + 3))),
   none⟩

theorem genPostRow_shift (c t : Int) (uids bids : List String) (g : Rng) (iOff j : Nat) :
    genPostRow (c + 1) t uids bids (Rng.mk g.stream (g.pos + 4)) (iOff + 1) j =
      genPostRow c t uids bids g iOff (j + 1) := by
  unfold genPostRow
  have h1 : c + 1 + Int.ofNat (j + 1) = c + Int.ofNat (j + 1 + 1) := by
    simp only [Int.ofNat_eq_natCast]
    omega
  have h2 : iOff + 1 + j = iOff + (j + 1) := by omega
  have h3 : iOff + 1 + j + 1 = iOff + (j + 1) + 1 := by omega
  have h4 : g.pos + 4 + 4 * j = g.pos + 4 * (j + 1) := by omega
  have h5 : g.pos + 4 + 4 * j + 1 = g.pos + 4 * (j + 1) + 1 := by omega
  have h6 : g.pos + 4 + 4 * j + 2 = g.pos + 4 * (j + 1) + 2 := by omega
  have h7 : g.pos + 4 + 4 * j + 3 = g.pos + 4 * (j + 1) + 3 := by omega
  simp only [h1, h2, h3, h4, h5, h6, h7]

/-- One successful iteration of the post-generation loop, seen from a
counter table holding `c` for "post": both pools are non-empty and the
iteration appends exactly one generated post row, consuming four
draws. -/
theorem seedPostStep_ok (uids bids : List String) (t : Int) (i : Nat) (db : DB) (g : Rng)
    (acc : List (String × Int)) (c : Int) (st' : PostsSt)
    (hc : counterLookup db.counters "post" = some c)
    (h : seedPostStep uids bids t i ⟨db, g, acc⟩ = Except.ok st') :
    uids ≠ [] ∧ bids ≠ [] ∧
    st' = ⟨{ db with
              counters := bumpCounter db.counters "post",
              posts := db.posts ++ [genPostRow c t uids bids g i 0] },
           Rng.mk g.stream (g.pos + 4),
           acc ++ [((genPostRow c t uids bids g i 0).id,
                    (genPostRow c t uids bids g i 0).created_at)]⟩ := by
  unfold seedPostStep at h
  rw [next_counter_present db "post" c hc] at h
  unfold rchoice insertPostRow at h
  simp only [randint] at h
  by_cases hb : bids.isEmpty
  · rw [if_pos hb] at h
    simp only [Bind.bind, Except.bind] at h
    exact Except.noConfusion h
  · rw [if_neg hb] at h
    simp only [Bind.bind, Except.bind] at h
    by_cases hu : uids.isEmpty
    · rw [if_pos hu] at h
      simp only [Bind.bind, Except.bind] at h
      exact Except.noConfusion h
    · rw [if_neg hu] at h
      simp only [Bind.bind, Except.bind] at h
      refine ⟨by simpa using hu, by simpa using hb, ?_⟩
      by_cases hdup :
          (db.posts.any fun p => p.id == "p_" ++ toString (c + 1)) = true
      · rw [if_pos hdup] at h
        exact Except.noConfusion h
      · rw [if_neg hdup] at h
        simp only [Except.ok.injEq] at h
        rw [← h]
        unfold genPostRow
        have e1 : c + Int.ofNat (0 + 1) = c + 1 := by
          simp
        have e2 : g.pos + 4 * 0 = g.pos := by omega
        have e3 : g.pos + 4 * 0 + 1 = g.pos + 1 := by omega
        have e4 : g.pos + 4 * 0 + 2 = g.pos + 2 := by omega
        have e5 : g.pos + 4 * 0 + 3 = g.pos + 3 := by omega
        simp only [e1, e2, e3, e4, e5, Nat.add_zero, Rng.next]

/-- Closed form of a successful post-generation loop. -/
theorem seedPostsGo_ok (uids bids : List String) (t : Int) :
    ∀ (n i : Nat) (db : DB) (g : Rng) (acc : List (String × Int)) (c : Int) (st' : PostsSt),
      counterLookup db.counters "post" = some c →
      seedPostsGo uids bids t n i ⟨db, g, acc⟩ = Except.ok st' →
      (0 < n → uids ≠ [] ∧ bids ≠ []) ∧
      st'.db.counters = bumpCounterN db.counters "post" n ∧
      st'.db.users = db.users ∧
      st'.db.accounts = db.accounts ∧
      st'.db.boards = db.boards ∧
      st'.db.posts = db.posts ++ (List.range n).map (genPostRow c t uids bids g i) ∧
      st'.db.post_votes = db.post_votes ∧
      st'.rng = Rng.mk g.stream (g.pos + 4 * n) ∧
      st'.posts = acc ++ (List.range n).map (fun j =>
        ((genPostRow c t uids bids g i j).id, (genPostRow c t uids bids g i j).created_at)) := by
  intro n
  induction n with
  | zero =>
      intro i db g acc c st' hc h
      unfold seedPostsGo at h
      simp only [Except.ok.injEq] at h
      rw [← h]
      simp [bumpCounterN_zero]
  | succ n ih =>
      intro i db g acc c st' hc h
      unfold seedPostsGo at h
      cases hstep : seedPostStep uids bids t i ⟨db, g, acc⟩ with
      | error e =>
          rw [hstep] at h
          exact absurd h (by simp [Bind.bind, Except.bind])
      | ok st1 =>
          rw [hstep] at h
          simp only [Bind.bind, Except.bind] at h
          obtain ⟨hu, hb, hst1⟩ := seedPostStep_ok uids bids t i db g acc c st1 hc hstep
          rw [hst1] at h
          have hc1 : counterLookup (bumpCounter db.counters "post") "post" = some (c + 1) := by
            rw [bumpCounter_eq_bumpCounterN_one, counterLookup_bumpCounterN_self, hc]
            rfl
          obtain ⟨_, e1, e2, e3, e4, e5, e6, e7, e8⟩ :=
            ih (i + 1) _ (Rng.mk g.stream (g.pos + 4)) _ (c + 1) st' hc1 h
          have hmap :
              List.map (genPostRow (c + 1) t uids bids (Rng.mk g.stream (g.pos + 4)) (i + 1))
                (List.range n) =
              List.map ((genPostRow c t uids bids g i) ∘ Nat.succ) (List.range n) := by
            apply List.map_congr_left
            intro j hj
            exact genPostRow_shift c t uids bids g i j
          refine ⟨fun _ => ⟨hu, hb⟩, ?_, by simpa using e2, by simpa using e3,
            by simpa using e4, ?_, by simpa using e6, ?_, ?_⟩
          · rw [e1]
            exact bumpCounterN_bumpCounter db.counters "post" n
          · rw [e5, hmap]
            simp only [List.append_assoc, List.singleton_append,
              List.range_succ_eq_map, List.map_cons, List.map_map]
          · rw [e7]
            congr 1
            show g.pos + 4 + 4 * n = g.pos + 4 * (n + 1)
            omega
          · rw [e8]
            have hmap2 : List.map (fun j =>
                  ((genPostRow (c + 1) t uids bids (Rng.mk g.stream (g.pos + 4)) (i + 1) j).id,
                   (genPostRow (c + 1) t uids bids (Rng.mk g.stream (g.pos + 4)) (i + 1) j).created_at))
                (List.range n)
                = List.map ((fun j =>
                    ((genPostRow c t uids bids g i j).id,
                     (genPostRow c t uids bids g i j).created_at)) ∘ Nat.succ)
                  (List.range n) := by
              apply List.map_congr_left
              intro j hj
              simp only [Function.comp_apply, Nat.succ_eq_add_one,
                ← genPostRow_shift c t uids bids g i j]
            rw [hmap2]
            simp only [List.append_assoc, List.singleton_append,
              List.range_succ_eq_map, List.map_cons, List.map_map]

/-! ## The likes phase -/

theorem insertVoteRows_ok :
    ∀ (us : List String) (db : DB) (pid : String) (ts : Int) (db' : DB),
      insertVoteRows pid ts us db = Except.ok db' →
      db' = { db with post_votes :=
                db.post_votes ++ us.map (fun uid => VoteRow.mk pid uid 1 ts) } := by
  intro us
  induction us with
  | nil =>
      intro db pid ts db' h
      unfold insertVoteRows at h
      simp only [Except.ok.injEq] at h
      rw [← h]
      simp
  | cons uid rest ih =>
      intro db pid ts db' h
      unfold insertVoteRows insertVoteRow at h
      by_cases hdup : (db.post_votes.any fun v => v.post_id == pid && v.user_id == uid) = true
      · rw [if_pos hdup] at h
        simp only [Bind.bind, Except.bind] at h
        exact Except.noConfusion h
      · rw [if_neg hdup] at h
        simp only [Bind.bind, Except.bind] at h
        rw [ih _ pid ts db' h]
        simp

/-- The like selected-index condition of one loop iteration. -/
def likeCond (lidx : List Nat) (k : Int) (idx : Nat) : Bool :=
  lidx.contains idx && decide (0 < k)

/-- What the likes loop appends for one enumerated post. -/
def voteChunk (uids : List String) (lidx : List Nat) (k : Int)
    (e : Nat × String × Int) : List VoteRow :=
  if likeCond lidx k e.1 then
    (uids.take k.toNat).map (fun uid => VoteRow.mk e.2.1 uid 1 e.2.2)
  else []

/-- Closed form of a successful likes loop: the vote table receives one
chunk per selected enumerated post (the capped leading segment of the
user pool, in order), nothing for the others; the counted posts are
exactly the selected ones; no other table changes. -/
theorem likesGo_ok (uids : List String) (lidx : List Nat) (k : Int) :
    ∀ (l : List (Nat × String × Int)) (db : DB) (liked : Nat) (db' : DB) (liked' : Nat),
      likesGo uids lidx k l db liked = Except.ok (db', liked') →
      db'.post_votes = db.post_votes ++ l.flatMap (voteChunk uids lidx k) ∧
      liked' = liked + l.countP (fun e => likeCond lidx k e.1) ∧
      db'.counters = db.counters ∧
      db'.users = db.users ∧
      db'.accounts = db.accounts ∧
      db'.boards = db.boards ∧
      db'.posts = db.posts := by
  intro l
  induction l with
  | nil =>
      intro db liked db' liked' h
      unfold likesGo at h
      simp only [Except.ok.injEq, Prod.mk.injEq] at h
      obtain ⟨h1, h2⟩ := h
      rw [← h1, ← h2]
      simp
  | cons e rest ih =>
      intro db liked db' liked' h
      obtain ⟨idx, pid, ts⟩ := e
      unfold likesGo at h
      by_cases hcond : ¬ lidx.contains idx = true ∨ k ≤ 0
      · rw [if_pos hcond] at h
        obtain ⟨i1, i2, i3, i4, i5, i6, i7⟩ := ih db liked db' liked' h
        have hfalse : likeCond lidx k idx = false := by
          unfold likeCond
          cases hcc : lidx.contains idx with
          | false => simp [hcc]
          | true =>
              have hk : k ≤ 0 := by
                rcases hcond with hm | hk
                · exact absurd hcc hm
                · exact hk
              have hk' : ¬ (0 : Int) < k := by omega
              simp [hcc, hk']
        refine ⟨?_, ?_, i3, i4, i5, i6, i7⟩
        · rw [i1]
          simp only [List.flatMap_cons, voteChunk, hfalse]
          simp
        · rw [i2]
          simp [List.countP_cons, hfalse]
      · rw [if_neg hcond] at h
        push_neg at hcond
        obtain ⟨hmem, hk⟩ := hcond
        cases hins : insertVoteRows pid ts (uids.take k.toNat) db with
        | error er =>
            rw [hins] at h
            simp only [Bind.bind, Except.bind] at h
            exact Except.noConfusion h
        | ok db1 =>
            rw [hins] at h
            simp only [Bind.bind, Except.bind] at h
            obtain ⟨i1, i2, i3, i4, i5, i6, i7⟩ := ih db1 (liked + 1) db' liked' h
            rw [insertVoteRows_ok _ db pid ts db1 hins] at i1 i3 i4 i5 i6 i7
            have htrue : likeCond lidx k idx = true := by
              unfold likeCond
              simp only [hmem, Bool.true_and, decide_eq_true_eq]
              omega
            refine ⟨?_, ?_, i3, i4, i5, i6, i7⟩
            · rw [i1]
              simp only [List.flatMap_cons, voteChunk, htrue, if_true]
              simp [List.append_assoc]
            · rw [i2]
              simp only [List.countP_cons, htrue]
              simp
              omega

/-! ## Whole-call characterisations -/

theorem seed_users_ok (db : DB) (rng : Rng) (count : Int) (rid : String) (t : Int)
    (c : Int) (uids : List String) (db' : DB) (rng' : Rng)
    (hc : counterLookup db.counters "user" = some c)
    (h : seed_users db rng count rid t = Except.ok (uids, db', rng')) :
    uids = (List.range count.toNat).map (fun j => "u_" ++ toString (c + Int.ofNat (j + 1))) ∧
    db'.counters = bumpCounterN db.counters "user" count.toNat ∧
    db'.users = db.users ++ (List.range count.toNat).map (genUserRow c t rng 0) ∧
    db'.accounts = db.accounts ++ (List.range count.toNat).map (genAccountRow rid c 0) ∧
    db'.boards = db.boards ∧
    db'.posts = db.posts ∧
    db'.post_votes = db.post_votes ∧
    rng' = Rng.mk rng.stream (rng.pos + count.toNat) := by
  unfold seed_users at h
  cases hgo : seedUsersGo rid t count.toNat 0 ⟨db, rng, []⟩ with
  | error e =>
      rw [hgo] at h
      exact absurd h (by simp [Bind.bind, Except.bind])
  | ok st =>
      rw [hgo] at h
      simp only [Bind.bind, Except.bind, Except.ok.injEq, Prod.mk.injEq] at h
      obtain ⟨h1, h2, h3⟩ := h
      obtain ⟨e1, e2, e3, e4, e5, e6, e7, e8⟩ :=
        seedUsersGo_ok rid t count.toNat 0 db rng [] c st hc hgo
      rw [← h1, ← h2, ← h3]
      simp only [List.nil_append] at e8
      exact ⟨e8, e1, e2, e3, e4, e5, e6, e7⟩

theorem seed_posts_ok (db : DB) (g : Rng) (count : Int) (uids bids : List String)
    (lpp le t : Int) (c : Int) (posts : List (String × Int)) (liked : Nat)
    (db' : DB) (g' : Rng)
    (hc : counterLookup db.counters "post" = some c)
    (h : seed_posts db g count uids bids lpp le t = Except.ok (posts, liked, db', g')) :
    (0 < count.toNat → uids ≠ [] ∧ bids ≠ []) ∧
    posts = (List.range count.toNat).map (fun j =>
      ((genPostRow c t uids bids g 0 j).id, (genPostRow c t uids bids g 0 j).created_at)) ∧
    db'.counters = bumpCounterN db.counters "post" count.toNat ∧
    db'.users = db.users ∧
    db'.accounts = db.accounts ∧
    db'.boards = db.boards ∧
    db'.posts = db.posts ++ (List.range count.toNat).map (genPostRow c t uids bids g 0) ∧
    db'.post_votes = db.post_votes ++ posts.enum.flatMap
      (voteChunk uids (likedIndices count.toNat (max 1 le).toNat)
        (min lpp (Int.ofNat uids.length))) ∧
    liked = posts.enum.countP (fun e =>
      likeCond (likedIndices count.toNat (max 1 le).toNat)
        (min lpp (Int.ofNat uids.length)) e.1) ∧
    g' = Rng.mk g.stream (g.pos + 4 * count.toNat) := by
  unfold seed_posts at h
  cases hgo : seedPostsGo uids bids t count.toNat 0 ⟨db, g, []⟩ with
  | error e =>
      rw [hgo] at h
      exact absurd h (by simp [Bind.bind, Except.bind])
  | ok st =>
      rw [hgo] at h
      simp only [Bind.bind, Except.bind] at h
      obtain ⟨p1, p2, p3, p4, p5, p6, p7, p8, p9⟩ :=
        seedPostsGo_ok uids bids t count.toNat 0 db g [] c st hc hgo
      cases hlk : likesGo uids (likedIndices count.toNat (max 1 le).toNat)
          (min lpp (Int.ofNat uids.length)) st.posts.enum st.db 0 with
      | error e =>
          rw [hlk] at h
          exact absurd h (by simp [Bind.bind, Except.bind])
      | ok pr =>
          obtain ⟨db2, liked2⟩ := pr
          rw [hlk] at h
          simp only [Bind.bind, Except.bind, Except.ok.injEq, Prod.mk.injEq] at h
          obtain ⟨h1, h2, h3, h4⟩ := h
          obtain ⟨l1, l2, l3, l4, l5, l6, l7⟩ :=
            likesGo_ok uids (likedIndices count.toNat (max 1 le).toNat)
              (min lpp (Int.ofNat uids.length)) st.posts.enum st.db 0 db2 liked2 hlk
          simp only [List.nil_append] at p9
          refine ⟨p1, by rw [← h1]; exact p9, ?_, ?_, ?_, ?_, ?_, ?_, ?_, ?_⟩
          · rw [← h3, l3, p2]
          · rw [← h3, l4, p3]
          · rw [← h3, l5, p4]
          · rw [← h3, l6, p5]
          · rw [← h3, l7, p6]
          · rw [← h3, l1, p7, h1]
          · rw [← h2, l2, h1]
            simp
          · rw [← h4, p8]

theorem fetch_board_ids_ne_nil (db : DB) : fetch_board_ids db ≠ [] := by
  show (if ((sortBySeq db.boards).map (fun b => b.id)).isEmpty = true
      then ["b_1", "b_2", "b_3"]
      else (sortBySeq db.boards).map (fun b => b.id)) ≠ []
  split
  · simp
  · next hr =>
      intro hcon
      rw [hcon] at hr
      simp at hr

theorem fetch_board_ids_congr (db db' : DB) (h : db'.boards = db.boards) :
    fetch_board_ids db' = fetch_board_ids db := by
  unfold fetch_board_ids
  rw [h]

/-! ## The whole transactional body -/

/-- `COALESCE(MAX(seq), 0)` over the users table. -/
def userTableMax (db : DB) : Int :=
  max_seq (db.users.map (fun u => u.seq))

/-- `COALESCE(MAX(seq), 0)` over the posts table. -/
def postTableMax (db : DB) : Int :=
  max_seq (db.posts.map (fun p => p.seq))

/-- The "user" counter value right after the two
`ensure_counter_at_least` floors: the stored value raised to the users
table maximum (the table maximum itself when the row was absent). -/
def userFloor (db : DB) : Int :=
  max ((counterLookup db.counters "user").getD (userTableMax db)) (userTableMax db)

/-- The "post" counter value right after the floors. -/
def postFloor (db : DB) : Int :=
  max ((counterLookup db.counters "post").getD (postTableMax db)) (postTableMax db)

/-- The counters table right after the two floors. -/
def flooredCounters (db : DB) : List (String × Int) :=
  (ensure_counter_at_least (ensure_counter_at_least db "user" (userTableMax db))
    "post" (postTableMax db)).counters

/-- Closed form of a successful `with conn:` body: every output of the
run is a function of the initial database, the flags, the generator,
the run id and the two clock instants, with the shapes produced by the
loop lemmas above. -/
theorem runBody_spec (db : DB) (fl : Flags) (rng : Rng) (rid : String) (tU tP : Int)
    (r : RunOut) (h : runBody db fl rng rid tU tP = Except.ok r) :
    r.user_ids = (List.range fl.users.toNat).map
      (fun j => "u_" ++ toString (userFloor db + Int.ofNat (j + 1))) ∧
    r.db.users = db.users ++
      (List.range fl.users.toNat).map (genUserRow (userFloor db) tU rng 0) ∧
    r.db.accounts = db.accounts ++
      (List.range fl.users.toNat).map (genAccountRow rid (userFloor db) 0) ∧
    r.db.boards = db.boards ∧
    r.posts = (List.range fl.posts.toNat).map (fun j =>
      ((genPostRow (postFloor db) tP r.user_ids (fetch_board_ids db)
          (Rng.mk rng.stream (rng.pos + fl.users.toNat)) 0 j).id,
       (genPostRow (postFloor db) tP r.user_ids (fetch_board_ids db)
          (Rng.mk rng.stream (rng.pos + fl.users.toNat)) 0 j).created_at)) ∧
    r.db.posts = db.posts ++ (List.range fl.posts.toNat).map
      (genPostRow (postFloor db) tP r.user_ids (fetch_board_ids db)
        (Rng.mk rng.stream (rng.pos + fl.users.toNat)) 0) ∧
    r.db.post_votes = db.post_votes ++ r.posts.enum.flatMap
      (voteChunk r.user_ids
        (likedIndices fl.posts.toNat (max 1 fl.liked_every).toNat)
        (min fl.likes_per_post (Int.ofNat fl.users.toNat))) ∧
    r.liked_posts = r.posts.enum.countP (fun e =>
      likeCond (likedIndices fl.posts.toNat (max 1 fl.liked_every).toNat)
        (min fl.likes_per_post (Int.ofNat fl.users.toNat)) e.1) ∧
    counterLookup r.db.counters "user" = some (userFloor db + Int.ofNat fl.users.toNat) ∧
    counterLookup r.db.counters "post" = some (postFloor db + Int.ofNat fl.posts.toNat) ∧
    r.db.counters = bumpCounterN (bumpCounterN (flooredCounters db) "user" fl.users.toNat)
      "post" fl.posts.toNat ∧
    (0 < fl.posts.toNat → r.user_ids ≠ [] ∧ fetch_board_ids db ≠ []) := by
  unfold runBody at h
  simp only [Bind.bind, Except.bind] at h
  rw [show max_seq (db.users.map (fun u => u.seq)) = userTableMax db from rfl] at h
  rw [show max_seq ((ensure_counter_at_least db "user" (userTableMax db)).posts.map
    (fun p => p.seq)) = postTableMax db from rfl] at h
  cases hsu : seed_users
      (ensure_counter_at_least (ensure_counter_at_least db "user" (userTableMax db))
        "post" (postTableMax db)) rng fl.users rid tU with
  | error e =>
      rw [hsu] at h
      exact absurd h (by simp)
  | ok tu =>
      obtain ⟨uids, db3, rng3⟩ := tu
      rw [hsu] at h
      simp only at h
      have hcU : counterLookup (ensure_counter_at_least
          (ensure_counter_at_least db "user" (userTableMax db)) "post"
          (postTableMax db)).counters "user" = some (userFloor db) := by
        rw [counterLookup_ensure_other _ _ _ _ (by decide),
          counterLookup_ensure_self]
        rfl
      have hcP : counterLookup (ensure_counter_at_least
          (ensure_counter_at_least db "user" (userTableMax db)) "post"
          (postTableMax db)).counters "post" = some (postFloor db) := by
        rw [counterLookup_ensure_self,
          counterLookup_ensure_other _ _ _ _ (by decide)]
        rfl
      obtain ⟨u1, u2, u3, u4, u5, u6, u7, u8⟩ :=
        seed_users_ok _ rng fl.users rid tU (userFloor db) uids db3 rng3 hcU hsu
      have hb3 : fetch_board_ids db3 = fetch_board_ids db := by
        apply fetch_board_ids_congr
        rw [u5]
        rfl
      cases hsp : seed_posts db3 rng3 fl.posts uids (fetch_board_ids db3)
          fl.likes_per_post fl.liked_every tP with
      | error e =>
          rw [hsp] at h
          exact absurd h (by simp [Bind.bind, Except.bind])
      | ok tp =>
          obtain ⟨posts, liked, db4, rng4⟩ := tp
          rw [hsp] at h
          simp only [Bind.bind, Except.bind, Except.ok.injEq] at h
          have hcP3 : counterLookup db3.counters "post" = some (postFloor db) := by
            rw [u2, counterLookup_bumpCounterN_other _ _ _ _ (by decide), hcP]
          obtain ⟨q1, q2, q3, q4, q5, q6, q7, q8, q9, q10⟩ :=
            seed_posts_ok db3 rng3 fl.posts uids (fetch_board_ids db3)
              fl.likes_per_post fl.liked_every tP (postFloor db) posts liked db4 rng4 hcP3 hsp
          have hr1 : r.db = db4 := by rw [← h]
          have hr2 : r.user_ids = uids := by rw [← h]
          have hr3 : r.posts = posts := by rw [← h]
          have hr4 : r.liked_posts = liked := by rw [← h]
          have husers : db4.users = db.users ++
              (List.range fl.users.toNat).map (genUserRow (userFloor db) tU rng 0) := by
            rw [q4, u3]
            rfl
          have haccounts : db4.accounts = db.accounts ++
              (List.range fl.users.toNat).map (genAccountRow rid (userFloor db) 0) := by
            rw [q5, u4]
            rfl
          have hboards : db4.boards = db.boards := by
            rw [q6, u5]
            rfl
          have hlen : uids.length = fl.users.toNat := by
            rw [u1]
            simp
          have hposts0 : db3.posts = db.posts := by
            rw [u6]
            rfl
          have hvotes0 : db3.post_votes = db.post_votes := by
            rw [u7]
            rfl
          have hcnt : db4.counters =
              bumpCounterN (bumpCounterN (flooredCounters db) "user" fl.users.toNat)
                "post" fl.posts.toNat := by
            rw [q3, u2]
            rfl
          refine ⟨?_, ?_, ?_, ?_, ?_, ?_, ?_, ?_, ?_, ?_, ?_, ?_⟩
          · rw [hr2, u1]
          · rw [hr1, husers]
          · rw [hr1, haccounts]
          · rw [hr1, hboards]
          · rw [hr3, hr2, q2, hb3, u8]
          · rw [hr1, hr2, q7, hposts0, hb3, u8]
          · rw [hr1, hr3, hr2, q8, hvotes0, hlen]
          · rw [hr4, hr3, q9, hlen]
          · rw [hr1, hcnt, counterLookup_bumpCounterN_other _ _ _ _ (by decide),
              counterLookup_bumpCounterN_self]
            unfold flooredCounters
            rw [hcU]
            rfl
          · rw [hr1, hcnt, counterLookup_bumpCounterN_self,
              counterLookup_bumpCounterN_other _ _ _ _ (by decide)]
            unfold flooredCounters
            rw [hcP]
            rfl
          · rw [hr1, hcnt]
          · intro hm
            obtain ⟨hu, hb⟩ := q1 hm
            rw [hr2, ← hb3]
            exact ⟨hu, hb⟩

/-! ## Generic list helpers -/

theorem enum_map_range {α : Type} (f : Nat → α) (m : Nat) :
    ((List.range m).map f).enum = (List.range m).map (fun i => (i, f i)) := by
  apply List.ext_getElem
  · simp
  · intro i h1 h2
    simp [List.getElem_enum, List.getElem_map, List.getElem_range]

theorem flatMap_congr {α β : Type} (l : List α) (f g : α → List β)
    (h : ∀ a ∈ l, f a = g a) : l.flatMap f = l.flatMap g := by
  induction l with
  | nil => simp
  | cons a rest ih =>
      simp only [List.flatMap_cons]
      rw [h a (by simp), ih (fun b hb => h b (by simp [hb]))]

theorem forall₂_map_map {α β γ : Type} (R : β → γ → Prop) (f : α → β) (g : α → γ) :
    ∀ l : List α, (∀ a ∈ l, R (f a) (g a)) → List.Forall₂ R (l.map f) (l.map g) := by
  intro l
  induction l with
  | nil => intro _; simp only [List.map_nil]; exact List.Forall₂.nil
  | cons a rest ih =>
      intro h
      simp only [List.map_cons]
      exact List.Forall₂.cons (h a (by simp)) (ih (fun b hb => h b (by simp [hb])))

theorem length_filter_eq_countP {α : Type} (p : α → Bool) (l : List α) :
    (l.filter p).length = l.countP p := by
  induction l with
  | nil => simp
  | cons x xs ih => by_cases h : p x <;> simp [List.filter_cons, h, List.countP_cons, ih]

theorem choiceVal_mem (l : List String) (h : l ≠ []) (x : Nat) : choiceVal l x ∈ l := by
  unfold choiceVal
  have hlen : 0 < l.length := List.length_pos.mpr h
  have hx : x % l.length < l.length := Nat.mod_lt _ hlen
  rw [List.getD_eq_getElem l "" hx]
  exact List.getElem_mem hx

theorem likedIndices_contains (m s idx : Nat) :
    ((likedIndices m s).contains idx = true) ↔ (idx < m ∧ idx % s = 0) := by
  simp [likedIndices, List.mem_filter, List.mem_range]

theorem likedIndices_length (m s : Nat) :
    (likedIndices m s).length = List.countP (fun i => i % s == 0) (List.range m) := by
  unfold likedIndices
  exact length_filter_eq_countP _ _

theorem countP_fst_enum_map_range {α : Type} (p : Nat → Bool) (f : Nat → α) (m : Nat) :
    List.countP (fun e => p e.1) ((List.range m).map f).enum =
      List.countP p (List.range m) := by
  rw [enum_map_range, List.countP_map]
  apply List.countP_congr
  intro i hi
  exact Iff.rfl

/-! ## Claim theorems -/

/-- Fixed demo inputs used by the witnesses below. -/
def rngZero : Rng := ⟨fun _ => 0, 0⟩

def demoFlags : Flags := ⟨"dev.db", 1, 2, 1, 1⟩

/-- A database holding one pre-existing post whose id collides with the
first id the seeder will mint (`seq 0` keeps the counter floor at 0, so
the run inserts `p_1` and hits the uniqueness constraint). -/
def demoClashDB : DB :=
  { emptyDB with posts := [⟨0, "p_1", "b_0", "u_0", "t", "c", 0, none⟩] }

def runOutOrDefault : Except String RunOut → RunOut
  | Except.ok r => r
  | Except.error _ => ⟨emptyDB, [], [], 0⟩

/-- C1: if any insert fails mid-batch, the enclosing transaction is
rolled back: the process ends with the database file exactly in its
pre-run state (all five mutated tables included, counters too, zero new
rows), nothing on stdout, the error on stderr, and a failing exit. -/
theorem claim_C1_rollback (db : DB) (fl : Flags) (rid : String) (tU tP : Int) (e : String)
    (h : runBody db fl (pyRandom 42) rid tU tP = Except.error e) :
    main_run true db fl rid tU tP = ⟨db, 1, [], [e]⟩ := by
  simp [main_run, h]

theorem claim_C1_rollback_witness :
    runBody demoClashDB demoFlags (pyRandom 42) "R" 0 0 = Except.error postsUniqueMsg ∧
    main_run true demoClashDB demoFlags "R" 0 0 = ⟨demoClashDB, 1, [], [postsUniqueMsg]⟩ :=
  ⟨rfl, claim_C1_rollback demoClashDB demoFlags "R" 0 0 postsUniqueMsg rfl⟩

theorem raiseCounter_raiseCounter (cs : List (String × Int)) (name : String) (m : Int) :
    raiseCounter (raiseCounter cs name m) name m = raiseCounter cs name m := by
  unfold raiseCounter
  rw [List.map_map]
  apply List.map_congr_left
  intro p _
  by_cases hp : p.1 = name
  · simp only [Function.comp_apply, hp, eq_self_iff_true, if_true, Prod.mk.injEq, true_and]
    omega
  · simp [Function.comp_apply, hp]

/-- C3: `ensure_counter_at_least` inserts the row at `min_value` when
absent, raises a lower stored value to `min_value`, never lowers a
higher one, and is idempotent on the whole database state. -/
theorem claim_C3_ensure_counter (db : DB) (name : String) (m : Int) :
    (counterLookup db.counters name = none →
      counterLookup (ensure_counter_at_least db name m).counters name = some m) ∧
    (∀ v, counterLookup db.counters name = some v → v < m →
      counterLookup (ensure_counter_at_least db name m).counters name = some m) ∧
    (∀ v, counterLookup db.counters name = some v → m ≤ v →
      counterLookup (ensure_counter_at_least db name m).counters name = some v) ∧
    ensure_counter_at_least (ensure_counter_at_least db name m) name m =
      ensure_counter_at_least db name m := by
  refine ⟨?_, ?_, ?_, ?_⟩
  · intro h
    rw [counterLookup_ensure_self, h]
    simp
  · intro v hv hlt
    rw [counterLookup_ensure_self, hv]
    simp only [Option.getD_some, Option.some.injEq]
    omega
  · intro v hv hle
    rw [counterLookup_ensure_self, hv]
    simp only [Option.getD_some, Option.some.injEq]
    omega
  · have hA : insertOrIgnoreCounter
        (raiseCounter (insertOrIgnoreCounter db.counters name m) name m) name m =
        raiseCounter (insertOrIgnoreCounter db.counters name m) name m := by
      apply insertOrIgnoreCounter_of_isSome
      rw [counterLookup_raiseCounter_self, counterLookup_insertOrIgnore_self]
      rfl
    have hB := raiseCounter_raiseCounter (insertOrIgnoreCounter db.counters name m) name m
    unfold ensure_counter_at_least
    dsimp only
    rw [hA, hB]

theorem claim_C3_ensure_counter_witness :
    counterLookup (ensure_counter_at_least emptyDB "user" 5).counters "user" = some 5 ∧
    counterLookup (ensure_counter_at_least
      { emptyDB with counters := [("user", 2)] } "user" 5).counters "user" = some 5 ∧
    counterLookup (ensure_counter_at_least
      { emptyDB with counters := [("user", 9)] } "user" 5).counters "user" = some 9 :=
  ⟨(claim_C3_ensure_counter emptyDB "user" 5).1 rfl,
   (claim_C3_ensure_counter { emptyDB with counters := [("user", 2)] } "user" 5).2.1
     2 rfl (by decide),
   (claim_C3_ensure_counter { emptyDB with counters := [("user", 9)] } "user" 5).2.2.1
     9 rfl (by decide)⟩

/-- C6: when the database path names no existing file, the process
performs zero writes, prints the error on stderr and exits nonzero. -/
theorem claim_C6_missing_database (db : DB) (fl : Flags) (rid : String) (tU tP : Int) :
    main_run false db fl rid tU tP = ⟨db, 1, [], [dbNotFoundMsg fl.db]⟩ := by
  simp [main_run]

theorem seedPostStep_empty_users (bids : List String) (hb : bids ≠ []) (t : Int) (i : Nat)
    (st : PostsSt) : seedPostStep [] bids t i st = Except.error choiceErrMsg := by
  unfold seedPostStep rchoice
  rw [if_neg (by simp [hb])]
  simp [Bind.bind, Except.bind]

/-- An invocation whose user pool comes out empty while at least one
post is requested fails on the first post iteration, when
`random.choice` is applied to the empty author pool — before any post
row is inserted. -/
theorem runBody_empty_pool (db : DB) (fl : Flags) (rng : Rng) (rid : String)
    (tU tP : Int) (hu : fl.users ≤ 0) (hp : 1 ≤ fl.posts) :
    runBody db fl rng rid tU tP = Except.error choiceErrMsg := by
  unfold runBody
  simp only [Bind.bind, Except.bind]
  have h0 : fl.users.toNat = 0 := by omega
  have hsu : ∀ db0 : DB, seed_users db0 rng fl.users rid tU = Except.ok ([], db0, rng) := by
    intro db0
    unfold seed_users
    rw [h0]
    unfold seedUsersGo
    simp [Bind.bind, Except.bind]
  rw [hsu]
  simp only
  obtain ⟨n, hn⟩ : ∃ n, fl.posts.toNat = n + 1 := ⟨fl.posts.toNat - 1, by omega⟩
  have hsp : ∀ db0 : DB, seed_posts db0 rng fl.posts []
      (fetch_board_ids db0) fl.likes_per_post fl.liked_every tP =
      Except.error choiceErrMsg := by
    intro db0
    unfold seed_posts
    rw [hn]
    unfold seedPostsGo
    rw [seedPostStep_empty_users (fetch_board_ids db0) (fetch_board_ids_ne_nil db0) tP 0 _]
    simp [Bind.bind, Except.bind]
  rw [hsp]

/-- C10: with an empty generated-user pool (a non-positive requested
user count) and at least one requested post, the run aborts with the
empty-choice error, and `main` leaves the database file untouched and
exits unsuccessfully — seeding posts needs a non-empty user pool. -/
theorem claim_C10_empty_pool (db : DB) (fl : Flags) (rng : Rng) (rid : String)
    (tU tP : Int) (hu : fl.users ≤ 0) (hp : 1 ≤ fl.posts) :
    runBody db fl rng rid tU tP = Except.error choiceErrMsg ∧
    main_run true db fl rid tU tP = ⟨db, 1, [], [choiceErrMsg]⟩ := by
  refine ⟨runBody_empty_pool db fl rng rid tU tP hu hp, ?_⟩
  simp [main_run, runBody_empty_pool db fl (pyRandom 42) rid tU tP hu hp]

theorem claim_C10_empty_pool_witness :
    runBody emptyDB ⟨"dev.db", 0, 1, 50, 5⟩ rngZero "R" 0 0 = Except.error choiceErrMsg ∧
    main_run true emptyDB ⟨"dev.db", 0, 1, 50, 5⟩ "R" 0 0 =
      ⟨emptyDB, 1, [], [choiceErrMsg]⟩ :=
  claim_C10_empty_pool emptyDB ⟨"dev.db", 0, 1, 50, 5⟩ rngZero "R" 0 0
    (by decide) (by decide)

/-- C7 as literally stated is refuted by a negative requested count:
`--users -1 --posts -1` is accepted, the run succeeds (exit 0), and
zero rows are inserted, not `-1`. -/
theorem claim_C7_counterexample :
    (main_run true emptyDB ⟨"dev.db", -1, -1, 50, 5⟩ "R" 0 0).exitCode = 0 ∧
    (main_run true emptyDB ⟨"dev.db", -1, -1, 50, 5⟩ "R" 0 0).db.users.length =
      emptyDB.users.length ∧
    (main_run true emptyDB ⟨"dev.db", -1, -1, 50, 5⟩ "R" 0 0).db.posts.length =
      emptyDB.posts.length ∧
    (Flags.users ⟨"dev.db", -1, -1, 50, 5⟩ ≠ 0) :=
  ⟨rfl, rfl, rfl, by decide⟩

/-- C7 (amended): for every successful run, the number of inserted User
rows is `max 0 users` and the number of inserted Post rows is
`max 0 posts` — equal to the requested counts whenever those are
non-negative (always, for the seeder's intended inputs). -/
theorem claim_C7_row_counts (db : DB) (fl : Flags) (rng : Rng) (rid : String)
    (tU tP : Int) (r : RunOut) (h : runBody db fl rng rid tU tP = Except.ok r) :
    r.db.users.length = db.users.length + fl.users.toNat ∧
    r.db.posts.length = db.posts.length + fl.posts.toNat ∧
    r.user_ids.length = fl.users.toNat ∧
    r.posts.length = fl.posts.toNat ∧
    (0 ≤ fl.users → (r.db.users.length : Int) = db.users.length + fl.users) ∧
    (0 ≤ fl.posts → (r.db.posts.length : Int) = db.posts.length + fl.posts) := by
  obtain ⟨s1, s2, s3, s4, s5, s6, s7, s8, s9, s10, s11, s12⟩ :=
    runBody_spec db fl rng rid tU tP r h
  have h1 : r.db.users.length = db.users.length + fl.users.toNat := by
    rw [s2]
    simp
  have h2 : r.db.posts.length = db.posts.length + fl.posts.toNat := by
    rw [s6]
    simp
  refine ⟨h1, h2, by rw [s1]; simp, by rw [s5]; simp, ?_, ?_⟩
  · intro hnn
    rw [h1]
    push_cast
    rw [Int.toNat_of_nonneg hnn]
  · intro hnn
    rw [h2]
    push_cast
    rw [Int.toNat_of_nonneg hnn]

theorem claim_C7_row_counts_witness :
    (runOutOrDefault (runBody emptyDB demoFlags rngZero "R" 0 0)).db.users.length =
      emptyDB.users.length + Int.toNat demoFlags.users ∧
    (runOutOrDefault (runBody emptyDB demoFlags rngZero "R" 0 0)).db.posts.length =
      emptyDB.posts.length + Int.toNat demoFlags.posts :=
  ⟨(claim_C7_row_counts emptyDB demoFlags rngZero "R" 0 0
      (runOutOrDefault (runBody emptyDB demoFlags rngZero "R" 0 0)) rfl).1,
   (claim_C7_row_counts emptyDB demoFlags rngZero "R" 0 0
      (runOutOrDefault (runBody emptyDB demoFlags rngZero "R" 0 0)) rfl).2.1⟩

/-- C2: after a successful run each counter equals the maximum of its
pre-run stored value and the pre-existing table maximum, plus the
number of rows newly inserted into its table; a run never decreases a
counter; and a subsequent run never re-issues a sequence number already
issued (for users or posts). -/
theorem claim_C2_counter_invariants (db : DB) (fl fl₂ : Flags) (rng rng₂ : Rng)
    (rid rid₂ : String) (tU tP tU₂ tP₂ : Int) (r₁ r₂ : RunOut)
    (h₁ : runBody db fl rng rid tU tP = Except.ok r₁)
    (h₂ : runBody r₁.db fl₂ rng₂ rid₂ tU₂ tP₂ = Except.ok r₂) :
    counterLookup r₁.db.counters "user" =
      some (userFloor db + Int.ofNat (r₁.db.users.drop db.users.length).length) ∧
    counterLookup r₁.db.counters "post" =
      some (postFloor db + Int.ofNat (r₁.db.posts.drop db.posts.length).length) ∧
    (∀ v w, counterLookup db.counters "user" = some v →
      counterLookup r₁.db.counters "user" = some w → v ≤ w) ∧
    (∀ v w, counterLookup db.counters "post" = some v →
      counterLookup r₁.db.counters "post" = some w → v ≤ w) ∧
    (∀ u₁ ∈ r₁.db.users.drop db.users.length,
      ∀ u₂ ∈ r₂.db.users.drop r₁.db.users.length, u₁.seq ≠ u₂.seq) ∧
    (∀ p₁ ∈ r₁.db.posts.drop db.posts.length,
      ∀ p₂ ∈ r₂.db.posts.drop r₁.db.posts.length, p₁.seq ≠ p₂.seq) := by
  obtain ⟨s1, s2, s3, s4, s5, s6, s7, s8, s9, s10, s11, s12⟩ :=
    runBody_spec db fl rng rid tU tP r₁ h₁
  obtain ⟨w1, w2, w3, w4, w5, w6, w7, w8, w9, w10, w11, w12⟩ :=
    runBody_spec r₁.db fl₂ rng₂ rid₂ tU₂ tP₂ r₂ h₂
  have hdropU : r₁.db.users.drop db.users.length =
      (List.range fl.users.toNat).map (genUserRow (userFloor db) tU rng 0) := by
    rw [s2]
    exact List.drop_left _ _
  have hdropP : r₁.db.posts.drop db.posts.length =
      (List.range fl.posts.toNat).map
        (genPostRow (postFloor db) tP r₁.user_ids (fetch_board_ids db)
          (Rng.mk rng.stream (rng.pos + fl.users.toNat)) 0) := by
    rw [s6]
    exact List.drop_left _ _
  have hdropU2 : r₂.db.users.drop r₁.db.users.length =
      (List.range fl₂.users.toNat).map (genUserRow (userFloor r₁.db) tU₂ rng₂ 0) := by
    rw [w2]
    exact List.drop_left _ _
  have hdropP2 : r₂.db.posts.drop r₁.db.posts.length =
      (List.range fl₂.posts.toNat).map
        (genPostRow (postFloor r₁.db) tP₂ r₂.user_ids (fetch_board_ids r₁.db)
          (Rng.mk rng₂.stream (rng₂.pos + fl₂.users.toNat)) 0) := by
    rw [w6]
    exact List.drop_left _ _
  have hlenU : (r₁.db.users.drop db.users.length).length = fl.users.toNat := by
    rw [hdropU]
    simp
  have hlenP : (r₁.db.posts.drop db.posts.length).length = fl.posts.toNat := by
    rw [hdropP]
    simp
  have hfloor2U : userFloor db + Int.ofNat fl.users.toNat ≤ userFloor r₁.db := by
    unfold userFloor
    rw [s9]
    simp only [Option.getD_some]
    exact le_max_left _ _
  have hfloor2P : postFloor db + Int.ofNat fl.posts.toNat ≤ postFloor r₁.db := by
    unfold postFloor
    rw [s10]
    simp only [Option.getD_some]
    exact le_max_left _ _
  refine ⟨by rw [hlenU]; exact s9, by rw [hlenP]; exact s10, ?_, ?_, ?_, ?_⟩
  · intro v w hv hw
    have hvf : v ≤ userFloor db := by
      unfold userFloor
      rw [hv]
      simp only [Option.getD_some]
      exact le_max_left _ _
    rw [s9] at hw
    have hw' : w = userFloor db + Int.ofNat fl.users.toNat := by
      exact (Option.some.injEq _ _ ▸ hw).symm
    simp only [Int.ofNat_eq_natCast] at hw'
    omega
  · intro v w hv hw
    have hvf : v ≤ postFloor db := by
      unfold postFloor
      rw [hv]
      simp only [Option.getD_some]
      exact le_max_left _ _
    rw [s10] at hw
    have hw' : w = postFloor db + Int.ofNat fl.posts.toNat := by
      exact (Option.some.injEq _ _ ▸ hw).symm
    simp only [Int.ofNat_eq_natCast] at hw'
    omega
  · intro u₁ hm₁ u₂ hm₂
    rw [hdropU] at hm₁
    rw [hdropU2] at hm₂
    obtain ⟨j₁, hj₁, hje₁⟩ := List.mem_map.mp hm₁
    obtain ⟨j₂, hj₂, hje₂⟩ := List.mem_map.mp hm₂
    have hs₁ : u₁.seq = userFloor db + Int.ofNat (j₁ + 1) := by
      rw [← hje₁]
      rfl
    have hs₂ : u₂.seq = userFloor r₁.db + Int.ofNat (j₂ + 1) := by
      rw [← hje₂]
      rfl
    have hb₁ : j₁ < fl.users.toNat := List.mem_range.mp hj₁
    simp only [Int.ofNat_eq_natCast] at hs₁ hs₂ hfloor2U
    omega
  · intro p₁ hm₁ p₂ hm₂
    rw [hdropP] at hm₁
    rw [hdropP2] at hm₂
    obtain ⟨j₁, hj₁, hje₁⟩ := List.mem_map.mp hm₁
    obtain ⟨j₂, hj₂, hje₂⟩ := List.mem_map.mp hm₂
    have hs₁ : p₁.seq = postFloor db + Int.ofNat (j₁ + 1) := by
      rw [← hje₁]
      rfl
    have hs₂ : p₂.seq = postFloor r₁.db + Int.ofNat (j₂ + 1) := by
      rw [← hje₂]
      rfl
    have hb₁ : j₁ < fl.posts.toNat := List.mem_range.mp hj₁
    simp only [Int.ofNat_eq_natCast] at hs₁ hs₂ hfloor2P
    omega

def demoRun1 : RunOut := runOutOrDefault (runBody emptyDB demoFlags rngZero "R1" 0 0)

def demoRun2 : RunOut :=
  runOutOrDefault (runBody demoRun1.db demoFlags rngZero "R2" 100 100)

theorem claim_C2_counter_invariants_witness :
    counterLookup demoRun1.db.counters "user" =
      some (userFloor emptyDB +
        Int.ofNat (demoRun1.db.users.drop emptyDB.users.length).length) ∧
    (∀ u₁ ∈ demoRun1.db.users.drop emptyDB.users.length,
      ∀ u₂ ∈ demoRun2.db.users.drop demoRun1.db.users.length, u₁.seq ≠ u₂.seq) :=
  ⟨(claim_C2_counter_invariants emptyDB demoFlags demoFlags rngZero rngZero "R1" "R2"
      0 0 100 100 demoRun1 demoRun2 rfl rfl).1,
   (claim_C2_counter_invariants emptyDB demoFlags demoFlags rngZero rngZero "R1" "R2"
      0 0 100 100 demoRun1 demoRun2 rfl rfl).2.2.2.2.1⟩

/-- C8: every post row inserted by a run names an author generated in
that same run and a board read from the pre-existing boards table (or
the fallback trio when that table is empty). -/
theorem claim_C8_membership (db : DB) (fl : Flags) (rng : Rng) (rid : String)
    (tU tP : Int) (r : RunOut) (h : runBody db fl rng rid tU tP = Except.ok r) :
    ∀ p ∈ r.db.posts.drop db.posts.length,
      p.author_id ∈ r.user_ids ∧ p.board_id ∈ fetch_board_ids db := by
  obtain ⟨s1, s2, s3, s4, s5, s6, s7, s8, s9, s10, s11, s12⟩ :=
    runBody_spec db fl rng rid tU tP r h
  intro p hp
  rw [s6, List.drop_left] at hp
  obtain ⟨j, hj, hjp⟩ := List.mem_map.mp hp
  have hm : 0 < fl.posts.toNat := by
    have := List.mem_range.mp hj
    omega
  obtain ⟨hune, hbne⟩ := s12 hm
  constructor
  · rw [← hjp]
    exact choiceVal_mem r.user_ids hune _
  · rw [← hjp]
    exact choiceVal_mem (fetch_board_ids db) hbne _

def demoPost0 : PostRow :=
  demoRun1.db.posts.headD ⟨0, "", "", "", "", "", 0, none⟩

theorem claim_C8_membership_witness :
    demoPost0.author_id ∈ demoRun1.user_ids ∧
    demoPost0.board_id ∈ fetch_board_ids emptyDB :=
  claim_C8_membership emptyDB demoFlags rngZero "R1" 0 0 demoRun1 rfl
    demoPost0 (by decide)

def exceptIsOk {ε α : Type} : Except ε α → Bool
  | Except.ok _ => true
  | Except.error _ => false

def seedPostsOut (x : Except String (List (String × Int) × Nat × DB × Rng)) :
    List (String × Int) × Nat × DB × Rng :=
  match x with
  | Except.ok y => y
  | Except.error _ => ([], 0, emptyDB, rngZero)

/-- C4 as literally stated is refuted at `likes_per_post = -1` with one
generated user and one post, `liked_every = 1`: the run succeeds, the
selected post at index 0 receives 0 like rows, but the claimed count
`min(likes_per_post, len(user_ids))` is `-1`, and the reported
liked-post count is 0, not the liked-every-based count 1. -/
theorem claim_C4_counterexample :
    exceptIsOk (seed_posts emptyDB rngZero 1 ["u_1"] ["b_1"] (-1) 1 0) = true ∧
    (seedPostsOut (seed_posts emptyDB rngZero 1 ["u_1"] ["b_1"] (-1) 1 0)).2.2.1.post_votes
      = [] ∧
    (seedPostsOut (seed_posts emptyDB rngZero 1 ["u_1"] ["b_1"] (-1) 1 0)).2.1 = 0 ∧
    min (-1 : Int) (Int.ofNat (["u_1"] : List String).length) = -1 ∧
    ¬ ((0 : Int) = -1) :=
  ⟨rfl, rfl, rfl, by decide, by decide⟩

/-- The selected-index list of a run (`set(range(0, count, max(1,
liked_every)))`). -/
def runLikedIdx (fl : Flags) : List Nat :=
  likedIndices fl.posts.toNat (max 1 fl.liked_every).toNat

/-- The per-post like cap of a run (`min(likes_per_post,
len(user_ids))`). -/
def runLikeCap (fl : Flags) : Int :=
  min fl.likes_per_post (Int.ofNat fl.users.toNat)

/-- C4 (amended): in a successful run, each post at a 0-based index
that is a multiple of `max 1 liked_every` receives exactly
`max 0 (min likes_per_post (number of generated users))` like rows —
the capped leading segment of the user-id pool in generation order, the
same segment for every selected post — and every other post receives
none; when `likes_per_post` exceeds the generated-user count, the run
caps the likes, emits the warning, and still reports the
liked-every-based count of selected posts. -/
theorem claim_C4_like_rows (db : DB) (fl : Flags) (rid : String) (tU tP : Int)
    (r : RunOut) (h : runBody db fl (pyRandom 42) rid tU tP = Except.ok r) :
    r.db.post_votes = db.post_votes ++
      r.posts.enum.flatMap (voteChunk r.user_ids (runLikedIdx fl) (runLikeCap fl)) ∧
    (∀ e : Nat × String × Int, likeCond (runLikedIdx fl) (runLikeCap fl) e.1 = true →
      voteChunk r.user_ids (runLikedIdx fl) (runLikeCap fl) e =
        (r.user_ids.take (runLikeCap fl).toNat).map
          (fun uid => VoteRow.mk e.2.1 uid 1 e.2.2) ∧
      (voteChunk r.user_ids (runLikedIdx fl) (runLikeCap fl) e).length =
        (runLikeCap fl).toNat) ∧
    (∀ e : Nat × String × Int, likeCond (runLikedIdx fl) (runLikeCap fl) e.1 = false →
      voteChunk r.user_ids (runLikedIdx fl) (runLikeCap fl) e = []) ∧
    (∀ idx, ((runLikedIdx fl).contains idx = true) ↔
      (idx < fl.posts.toNat ∧ idx % (max 1 fl.liked_every).toNat = 0)) ∧
    (Int.ofNat r.user_ids.length < fl.likes_per_post →
      r.liked_posts = (runLikedIdx fl).length ∧
      warnLine r.user_ids.length ∈ (main_run true db fl rid tU tP).out) := by
  obtain ⟨s1, s2, s3, s4, s5, s6, s7, s8, s9, s10, s11, s12⟩ :=
    runBody_spec db fl (pyRandom 42) rid tU tP r h
  have hulen : r.user_ids.length = fl.users.toNat := by
    rw [s1]
    simp
  have hcaple : (runLikeCap fl).toNat ≤ fl.users.toNat := by
    unfold runLikeCap
    simp only [Int.ofNat_eq_natCast]
    omega
  refine ⟨?_, ?_, ?_, fun idx => likedIndices_contains _ _ idx, ?_⟩
  · rw [s7]
    rfl
  · intro e he
    refine ⟨by unfold voteChunk; rw [if_pos he], ?_⟩
    unfold voteChunk
    rw [if_pos he]
    rw [List.length_map, List.length_take, hulen]
    omega
  · intro e he
    unfold voteChunk
    rw [if_neg (by simp [he])]
  · intro hcap
    rw [hulen] at hcap
    have hkpos : 0 < runLikeCap fl ∨ fl.users.toNat = 0 := by
      unfold runLikeCap
      by_cases h0 : fl.users.toNat = 0
      · exact Or.inr h0
      · left
        have : (0 : Int) < Int.ofNat fl.users.toNat := by
          simp only [Int.ofNat_eq_natCast]
          exact_mod_cast Nat.pos_of_ne_zero h0
        exact lt_min (by omega) this
    constructor
    · rw [s8, s5, countP_fst_enum_map_range]
      show List.countP (fun idx => likeCond (runLikedIdx fl) (runLikeCap fl) idx)
        (List.range fl.posts.toNat) = (runLikedIdx fl).length
      rcases hkpos with hk | h0
      · unfold runLikedIdx
        rw [likedIndices_length]
        apply List.countP_congr
        intro i hi
        have hi' := List.mem_range.mp hi
        simp only [likeCond, Bool.and_eq_true, decide_eq_true_eq, beq_iff_eq]
        constructor
        · intro hx
          exact ((likedIndices_contains _ _ _).mp hx.1).2
        · intro hx
          exact ⟨(likedIndices_contains _ _ _).mpr ⟨hi', hx⟩, hk⟩
      · -- no users were generated: the run then has zero posts, so both
        -- sides are zero
        have hm0 : fl.posts.toNat = 0 := by
          by_contra hm
          have := (s12 (Nat.pos_of_ne_zero hm)).1
          rw [s1, h0] at this
          simp at this
        rw [hm0]
        unfold runLikedIdx
        rw [hm0]
        simp [likedIndices]
    · have hwb : decide (Int.ofNat r.user_ids.length < fl.likes_per_post) = true := by
        rw [hulen]
        simpa using hcap
      simp [main_run, h, hwb]
      right
      exact of_decide_eq_true hwb

def demoCapFlags : Flags := ⟨"dev.db", 1, 2, 7, 2⟩

def demoCapRun : RunOut :=
  runOutOrDefault (runBody emptyDB demoCapFlags (pyRandom 42) "R" 0 0)

theorem claim_C4_like_rows_witness :
    demoCapRun.db.post_votes = emptyDB.post_votes ++
      demoCapRun.posts.enum.flatMap
        (voteChunk demoCapRun.user_ids (runLikedIdx demoCapFlags)
          (runLikeCap demoCapFlags)) ∧
    (Int.ofNat demoCapRun.user_ids.length < demoCapFlags.likes_per_post →
      demoCapRun.liked_posts = (runLikedIdx demoCapFlags).length ∧
      warnLine demoCapRun.user_ids.length ∈
        (main_run true emptyDB demoCapFlags "R" 0 0).out) :=
  ⟨(claim_C4_like_rows emptyDB demoCapFlags "R" 0 0 demoCapRun rfl).1,
   (claim_C4_like_rows emptyDB demoCapFlags "R" 0 0 demoCapRun rfl).2.2.2.2⟩

/-- C5: for `liked_every = 5` and 20 requested posts (with a positive
like cap, as under the defaults), exactly the posts at 0-based indices
0, 5, 10 and 15 — 4 posts — receive like rows; every other post
receives none. -/
theorem claim_C5_period_five (db : DB) (rng : Rng) (uids bids : List String)
    (lpp tP c : Int) (posts : List (String × Int)) (liked : Nat) (db' : DB) (rng' : Rng)
    (hc : counterLookup db.counters "post" = some c)
    (hk : 0 < min lpp (Int.ofNat uids.length))
    (h : seed_posts db rng 20 uids bids lpp 5 tP = Except.ok (posts, liked, db', rng')) :
    liked = 4 ∧
    posts.length = 20 ∧
    db'.post_votes = db.post_votes ++ posts.enum.flatMap (fun e =>
      if e.1 ∈ ([0, 5, 10, 15] : List Nat) then
        (uids.take (min lpp (Int.ofNat uids.length)).toNat).map
          (fun uid => VoteRow.mk e.2.1 uid 1 e.2.2)
      else []) := by
  obtain ⟨q1, q2, q3, q4, q5, q6, q7, q8, q9, q10⟩ :=
    seed_posts_ok db rng 20 uids bids lpp 5 tP c posts liked db' rng' hc h
  have hlidx : likedIndices (20 : Int).toNat (max 1 (5 : Int)).toNat = [0, 5, 10, 15] := by
    decide
  have hlen : posts.length = 20 := by
    rw [q2]
    simp
  refine ⟨?_, hlen, ?_⟩
  · rw [q9, hlidx, q2, enum_map_range, List.countP_map]
    have hpt : ∀ i ∈ List.range (20 : Int).toNat,
        (((fun e : Nat × String × Int =>
            likeCond [0, 5, 10, 15] (min lpp (Int.ofNat uids.length)) e.1) ∘
          (fun i => (i, ((genPostRow c tP uids bids rng 0 i).id,
            (genPostRow c tP uids bids rng 0 i).created_at)))) i = true) ↔
        ((fun i : Nat => List.contains [0, 5, 10, 15] i) i = true) := by
      intro i hi
      simp only [Function.comp_apply, likeCond, Bool.and_eq_true, decide_eq_true_eq]
      exact ⟨fun hx => hx.1, fun hx => ⟨hx, hk⟩⟩
    rw [List.countP_congr hpt]
    decide
  · rw [q8, hlidx]
    congr 1
    apply flatMap_congr
    intro e he
    unfold voteChunk likeCond
    by_cases hm : e.1 ∈ ([0, 5, 10, 15] : List Nat)
    · have hcont : List.contains [0, 5, 10, 15] e.1 = true := by simpa using hm
      have hcond : (List.contains [0, 5, 10, 15] e.1 &&
          decide (0 < min lpp (Int.ofNat uids.length))) = true := by
        rw [hcont, decide_eq_true hk]
        rfl
      rw [if_pos hm, if_pos hcond]
    · have hcont : List.contains [0, 5, 10, 15] e.1 = false := by simpa using hm
      have hcond : ¬ ((List.contains [0, 5, 10, 15] e.1 &&
          decide (0 < min lpp (Int.ofNat uids.length))) = true) := by
        rw [hcont]
        simp
      rw [if_neg hm, if_neg hcond]

def demoC5DB : DB := { emptyDB with counters := [("post", 0)] }

def demoC5 : List (String × Int) × Nat × DB × Rng :=
  seedPostsOut (seed_posts demoC5DB rngZero 20 ["u_1"] ["b_1"] 1 5 0)

theorem claim_C5_period_five_witness :
    demoC5.2.1 = 4 ∧ demoC5.1.length = 20 :=
  ⟨(claim_C5_period_five demoC5DB rngZero ["u_1"] ["b_1"] 1 0 0 demoC5.1 demoC5.2.1
      demoC5.2.2.1 demoC5.2.2.2 rfl (by decide) rfl).1,
   (claim_C5_period_five demoC5DB rngZero ["u_1"] ["b_1"] 1 0 0 demoC5.1 demoC5.2.1
      demoC5.2.2.1 demoC5.2.2.2 rfl (by decide) rfl).2.1⟩

/-- C9: two runs from the same initial database and flags, with the
same (fixed-seed) generator state, make identical random draws: they
issue the same sequence numbers and ids, pick the same board and the
same author for every post (draws taken board first, then author, per
post in generation order), and back-date every row by the same
day/second offsets; only the wall-clock-derived run discriminator
embedded in the account login identifiers (and the wall-clock base of
the timestamps) differs. -/
theorem claim_C9_determinism (db : DB) (fl : Flags) (rng : Rng) (rid₁ rid₂ : String)
    (tU₁ tP₁ tU₂ tP₂ : Int) (r₁ r₂ : RunOut)
    (h₁ : runBody db fl rng rid₁ tU₁ tP₁ = Except.ok r₁)
    (h₂ : runBody db fl rng rid₂ tU₂ tP₂ = Except.ok r₂) :
    r₁.user_ids = r₂.user_ids ∧
    r₁.liked_posts = r₂.liked_posts ∧
    r₁.db.counters = r₂.db.counters ∧
    List.Forall₂ (fun (p q : PostRow) =>
        p.seq = q.seq ∧ p.id = q.id ∧ p.board_id = q.board_id ∧ p.author_id = q.author_id ∧
        p.title = q.title ∧ p.content = q.content ∧
        tP₁ - p.created_at = tP₂ - q.created_at ∧ p.deleted_at = q.deleted_at)
      (r₁.db.posts.drop db.posts.length) (r₂.db.posts.drop db.posts.length) ∧
    List.Forall₂ (fun (u v : UserRow) =>
        u.seq = v.seq ∧ u.id = v.id ∧ u.nickname = v.nickname ∧
        tU₁ - u.created_at = tU₂ - v.created_at)
      (r₁.db.users.drop db.users.length) (r₂.db.users.drop db.users.length) ∧
    List.Forall₂ (fun (a b : AccountRow) =>
        a.user_id = b.user_id ∧ a.password_hash = b.password_hash ∧
        ∃ tag, a.account = "seed_" ++ rid₁ ++ "_" ++ tag ∧
          b.account = "seed_" ++ rid₂ ++ "_" ++ tag)
      (r₁.db.accounts.drop db.accounts.length)
      (r₂.db.accounts.drop db.accounts.length) := by
  obtain ⟨s1, s2, s3, s4, s5, s6, s7, s8, s9, s10, s11, s12⟩ :=
    runBody_spec db fl rng rid₁ tU₁ tP₁ r₁ h₁
  obtain ⟨w1, w2, w3, w4, w5, w6, w7, w8, w9, w10, w11, w12⟩ :=
    runBody_spec db fl rng rid₂ tU₂ tP₂ r₂ h₂
  have huids : r₁.user_ids = r₂.user_ids := by
    rw [s1, w1]
  rw [← huids] at w5 w6
  refine ⟨huids, ?_, by rw [s11, w11], ?_, ?_, ?_⟩
  · rw [s8, s5, countP_fst_enum_map_range, w8, w5, countP_fst_enum_map_range]
  · rw [s6, w6, List.drop_left, List.drop_left]
    apply forall₂_map_map
    intro j hj
    refine ⟨rfl, rfl, rfl, rfl, rfl, rfl, ?_, rfl⟩
    show tP₁ - (tP₁ - (86400 * drawVal 0 30 (rng.stream (rng.pos + fl.users.toNat + 4 * j + 2)) +
        drawVal 0 86400 (rng.stream (rng.pos + fl.users.toNat + 4 * j + 3)))) =
      tP₂ - (tP₂ - (86400 * drawVal 0 30 (rng.stream (rng.pos + fl.users.toNat + 4 * j + 2)) +
        drawVal 0 86400 (rng.stream (rng.pos + fl.users.toNat + 4 * j + 3))))
    rw [sub_sub_cancel, sub_sub_cancel]
  · rw [s2, w2, List.drop_left, List.drop_left]
    apply forall₂_map_map
    intro j hj
    refine ⟨rfl, rfl, rfl, ?_⟩
    show tU₁ - (tU₁ - 86400 * drawVal 0 90 (rng.stream (rng.pos + j))) =
      tU₂ - (tU₂ - 86400 * drawVal 0 90 (rng.stream (rng.pos + j)))
    rw [sub_sub_cancel, sub_sub_cancel]
  · rw [s3, w3, List.drop_left, List.drop_left]
    apply forall₂_map_map
    intro j hj
    exact ⟨rfl, rfl, pad3 (0 + j + 1), rfl, rfl⟩

def demoRunA : RunOut := runOutOrDefault (runBody emptyDB demoFlags rngZero "A" 0 0)

def demoRunB : RunOut := runOutOrDefault (runBody emptyDB demoFlags rngZero "B" 7 11)

theorem claim_C9_determinism_witness :
    demoRunA.user_ids = demoRunB.user_ids ∧
    demoRunA.liked_posts = demoRunB.liked_posts :=
  ⟨(claim_C9_determinism emptyDB demoFlags rngZero "A" "B" 0 0 7 11
      demoRunA demoRunB rfl rfl).1,
   (claim_C9_determinism emptyDB demoFlags rngZero "A" "B" 0 0 7 11
      demoRunA demoRunB rfl rfl).2.1⟩

end SeedFakeData
